import Mathlib

/-!
# Character controller and animation state machine of `src/main.js`

A shallow embedding of `FiniteStateMachine`, `CharacterFSM` and the six state
classes (`IdleState`, `WalkState`, `RunState`, `RunBackwardsState`,
`WalkBackState`, `AttackState`) together with the part of the animation host
they touch, and of `BasicCharacterControllerInput` and `BasicCharacterController`.

Conventions of the embedding.

* JavaScript numbers are modelled by rationals (`ℚ`) with explicit rounding: every function
  that computes takes the rounding `fl : ℚ → ℚ` of the arithmetic as its first argument and
  applies it to the result of each arithmetic operation (`id` is exact arithmetic,
  `Float64.round` binary64; section "Numbers of the controller").  The literals `0.0`,
  `1.0` and `0.5` of the state classes are numbers of every binary arithmetic and are
  written `0`, `1` and `1/2`.
* Every object created by `new` (a state instance) and every closure created by
  an arrow function (a completion callback) receives a fresh allocation number;
  "the same instance" means "the same allocation number".
* A method that can throw returns an `Outcome`, which carries the machine as it
  is at the moment of the return or of the throw.
* `trace` is a ghost log: it records, in program order, the lifecycle calls made
  by `SetState` and the method calls issued to the animation host.  Nothing in
  the program reads it.  `console.log` output is not modelled.
* The six entries of `_animations` are taken to be present: `SetState` is first
  called from the loading manager's `onLoad` (lines 45-47).
-/

/-! ## Input -/

/-- The `_keys` record of `BasicCharacterControllerInput` (lines 164-171). -/
structure Keys where
  forward : Bool
  backward : Bool
  left : Bool
  right : Bool
  shift : Bool
  space : Bool
  deriving DecidableEq, Repr

/-- The input object handed to `Update`; only `_keys` is ever read. -/
structure BasicCharacterControllerInput where
  _keys : Keys
  deriving DecidableEq, Repr

/-! ## Animation host -/

/-- Loop modes of an animation action (`THREE.LoopOnce` is the only one the source assigns). -/
inductive LoopMode
  | LoopRepeat
  | LoopOnce
  deriving DecidableEq, Repr

/-- The properties of a `THREE.AnimationAction` that the source reads or writes. -/
structure AnimationAction where
  time : ℚ
  enabled : Bool
  timeScale : ℚ
  weight : ℚ
  loop : LoopMode
  clampWhenFinished : Bool
  deriving DecidableEq, Repr

/-- An animation clip; only `duration` is read (through `getClip().duration`). -/
structure AnimationClip where
  duration : ℚ
  deriving DecidableEq, Repr

/-- One entry `{ clip, action }` of `_animations` (lines 53-56). -/
structure AnimationEntry where
  clip : AnimationClip
  action : AnimationAction
  deriving DecidableEq, Repr

/-- The six state classes registered by `CharacterFSM` (lines 256-261). -/
inductive StateClass
  | IdleState
  | WalkState
  | RunState
  | RunBackwardsState
  | WalkBackState
  | AttackState
  deriving DecidableEq, Repr

/-- The `Name` getter of each state class. -/
def StateClass.Name : StateClass → String
  | .IdleState => "idle"
  | .WalkState => "walk"
  | .RunState => "run"
  | .RunBackwardsState => "runbackwards"
  | .WalkBackState => "walkback"
  | .AttackState => "attack"

/-- The `_animations` object, keyed by the name of a state (`_animations[state.Name]`);
the key is represented by the state class carrying that name. -/
structure AnimationSet where
  idle : AnimationEntry
  walk : AnimationEntry
  run : AnimationEntry
  runbackwards : AnimationEntry
  walkback : AnimationEntry
  attack : AnimationEntry
  deriving DecidableEq, Repr

/-- Property read `_animations[k.Name]`. -/
def AnimationSet.get (s : AnimationSet) : StateClass → AnimationEntry
  | .IdleState => s.idle
  | .WalkState => s.walk
  | .RunState => s.run
  | .RunBackwardsState => s.runbackwards
  | .WalkBackState => s.walkback
  | .AttackState => s.attack

/-- Replace the action stored under `_animations[k.Name]` (the clip is immutable). -/
def AnimationSet.modifyAction (s : AnimationSet) (k : StateClass)
    (f : AnimationAction → AnimationAction) : AnimationSet :=
  match k with
  | .IdleState => { s with idle := { s.idle with action := f s.idle.action } }
  | .WalkState => { s with walk := { s.walk with action := f s.walk.action } }
  | .RunState => { s with run := { s.run with action := f s.run.action } }
  | .RunBackwardsState =>
      { s with runbackwards := { s.runbackwards with action := f s.runbackwards.action } }
  | .WalkBackState => { s with walkback := { s.walkback with action := f s.walkback.action } }
  | .AttackState => { s with attack := { s.attack with action := f s.attack.action } }

/-! ## Objects -/

/-- A completion callback: the arrow function created at lines 494-499.  `id` is the
closure's allocation number, `owner` the allocation number of the `AttackState`
instance captured as `this`. -/
structure Callback where
  id : Nat
  owner : Nat
  deriving DecidableEq, Repr

/-- A state instance.  `_finishedCallback` is the field of `AttackState` (line 477);
the other classes never touch it and it stays `none` (`null`). -/
structure StateObj where
  id : Nat
  cls : StateClass
  _finishedCallback : Option Callback
  deriving DecidableEq, Repr

/-- The `Name` getter of an instance. -/
def StateObj.Name (s : StateObj) : String := s.cls.Name

/-- What `_currentState` can hold besides `null`: a state instance or, after
`SetState("constructor")`, the state machine object itself (`new Object(this)`
evaluates to `this`). -/
inductive CurrentState
  | state (s : StateObj)
  | fsm
  deriving DecidableEq, Repr

/-- Ghost log entries, in program order. -/
inductive Event
  | Exit (obj : Nat)
  | construct (cls : StateClass) (obj : Nat)
  | assign (obj : Nat)
  | Enter (obj : Nat) (prev : Option Nat)
  | setEffectiveTimeScale (a : StateClass) (v : ℚ)
  | setEffectiveWeight (a : StateClass) (v : ℚ)
  | reset (a : StateClass)
  | crossFadeFrom (a : StateClass) (prev : StateClass) (duration : ℚ) (warp : Bool)
  | play (a : StateClass)
  | addEventListener (cb : Callback)
  | removeEventListener (cb : Callback)
  deriving DecidableEq, Repr

/-- Lifecycle entries are those written by `SetState` itself. -/
def Event.isLifecycle : Event → Bool
  | .Exit _ => true
  | .construct _ _ => true
  | .assign _ => true
  | .Enter _ _ => true
  | _ => false

/-- The state machine together with the animation host it drives.

* `_currentState` : the field of `FiniteStateMachine` (`none` is `null`);
* `_proxy` : `this._proxy._animations`;
* `listeners` : the mixer's listener array for the `"finished"` event
  (all actions share the one mixer, line 51);
* `nextId` : next allocation number;
* `trace` : ghost log. -/
structure CharacterFSM where
  _currentState : Option CurrentState
  _proxy : AnimationSet
  listeners : List Callback
  nextId : Nat
  trace : List Event
  deriving DecidableEq, Repr

/-- Errors thrown by the JavaScript runtime. -/
inductive JsError
  | TypeError
  | RangeError
  deriving DecidableEq, Repr

/-- Result of a method call: normal return, or a throw, with the machine at that moment. -/
inductive Outcome
  | ok (m : CharacterFSM)
  | threw (e : JsError) (m : CharacterFSM)
  deriving DecidableEq, Repr

/-- The machine after the call, however it ended. -/
def Outcome.machine : Outcome → CharacterFSM
  | .ok m => m
  | .threw _ m => m

/-- Whether the call returned normally. -/
def Outcome.returned : Outcome → Bool
  | .ok _ => true
  | .threw _ _ => false

/-- Sequencing of statements: a throw skips the rest. -/
def Outcome.andThen (o : Outcome) (f : CharacterFSM → Outcome) : Outcome :=
  match o with
  | .ok m => f m
  | .threw e m => .threw e m

namespace CharacterFSM

/-- Append an entry to the ghost log. -/
def log (m : CharacterFSM) (e : Event) : CharacterFSM :=
  { m with trace := m.trace ++ [e] }

/-- Property write on the action `_animations[k.Name].action`. -/
def modifyAction (m : CharacterFSM) (k : StateClass)
    (f : AnimationAction → AnimationAction) : CharacterFSM :=
  { m with _proxy := m._proxy.modifyAction k f }

/-- Read `_animations[k.Name].action`. -/
def action (m : CharacterFSM) (k : StateClass) : AnimationAction :=
  (m._proxy.get k).action

/-- Read `_animations[k.Name].action.getClip()`. -/
def clip (m : CharacterFSM) (k : StateClass) : AnimationClip :=
  (m._proxy.get k).clip

/-- Host call `action.setEffectiveTimeScale(v)`: sets the action's time scale. -/
def setEffectiveTimeScale (m : CharacterFSM) (k : StateClass) (v : ℚ) : CharacterFSM :=
  (m.modifyAction k fun a => { a with timeScale := v }).log (.setEffectiveTimeScale k v)

/-- Host call `action.setEffectiveWeight(v)`: sets the action's weight. -/
def setEffectiveWeight (m : CharacterFSM) (k : StateClass) (v : ℚ) : CharacterFSM :=
  (m.modifyAction k fun a => { a with weight := v }).log (.setEffectiveWeight k v)

/-- Host call `action.reset()`: rewinds and enables the action. -/
def reset (m : CharacterFSM) (k : StateClass) : CharacterFSM :=
  (m.modifyAction k fun a => { a with time := 0, enabled := true }).log (.reset k)

/-- Host call `action.crossFadeFrom(prevAction, duration, warp)`: schedules a blend;
the blend itself is carried out by the host's clock and is not modelled. -/
def crossFadeFrom (m : CharacterFSM) (k prev : StateClass) (duration : ℚ) (warp : Bool) :
    CharacterFSM :=
  m.log (.crossFadeFrom k prev duration warp)

/-- Host call `action.play()`. -/
def play (m : CharacterFSM) (k : StateClass) : CharacterFSM :=
  m.log (.play k)

/-- Host call `getMixer().addEventListener("finished", cb)`: the dispatcher appends the
listener unless it is already in the array. -/
def addEventListener (m : CharacterFSM) (cb : Callback) : CharacterFSM :=
  ({ m with listeners := if cb ∈ m.listeners then m.listeners else m.listeners ++ [cb] }).log
    (.addEventListener cb)

/-- Host call `getMixer().removeEventListener("finished", cb)`: the dispatcher removes the
listener's first occurrence, if any. -/
def removeEventListener (m : CharacterFSM) (cb : Callback) : CharacterFSM :=
  ({ m with listeners := m.listeners.erase cb }).log (.removeEventListener cb)

/-- Write `this._finishedCallback = v` on the instance numbered `obj`.  Only the active
instance is reachable from the machine, so a write to any other instance is unobservable. -/
def setFinishedCallback (m : CharacterFSM) (obj : Nat) (v : Option Callback) : CharacterFSM :=
  match m._currentState with
  | some (.state s) =>
      if s.id = obj then
        { m with _currentState := some (.state { s with _finishedCallback := v }) }
      else m
  | _ => m

/-- The instance `s` as the machine holds it now: objects are shared by reference, so a
variable bound to the active instance sees the writes made to it. -/
def deref (m : CharacterFSM) (s : StateObj) : StateObj :=
  match m._currentState with
  | some (.state t) => if t.id = s.id then t else s
  | _ => s

end CharacterFSM

/-! ## State classes: `Enter` and `Exit` -/

/-- The entry protocol shared, line for line, by `WalkState`, `RunState`,
`RunBackwardsState` and `WalkBackState` (lines 318-338, 358-378, 397-418, 438-459):
`self` is the class of the entered state and `paired` the class whose name the
source compares `prevState.Name` with.  The division and the multiplication of the
resynchronisation are each rounded by `fl`. -/
def gaitEnter (fl : ℚ → ℚ) (self paired : StateClass) (prevState : Option StateObj)
    (m : CharacterFSM) : CharacterFSM :=
  match prevState with
  | some prev =>
      -- currAction.enabled = true;
      let m := m.modifyAction self fun a => { a with enabled := true }
      let m :=
        if prev.Name = paired.Name then
          -- ratio = currAction.getClip().duration / prevAction.getClip().duration;
          -- currAction.time = prevAction.time * ratio;
          let ratio := fl ((m.clip self).duration / (m.clip prev.cls).duration)
          m.modifyAction self fun a => { a with time := fl ((m.action prev.cls).time * ratio) }
        else
          -- currAction.time = 0.0; setEffectiveTimeScale(1.0); setEffectiveWeight(1.0);
          ((m.modifyAction self fun a => { a with time := 0 }).setEffectiveTimeScale self
            1).setEffectiveWeight self 1
      -- currAction.crossFadeFrom(prevAction, 0.5, true); currAction.play();
      (m.crossFadeFrom self prev.cls (1/2) true).play self
  | none => m.play self

namespace IdleState

/-- `IdleState.Enter(prevState)` (lines 283-296). -/
def Enter (prevState : Option StateObj) (m : CharacterFSM) : CharacterFSM :=
  match prevState with
  | some prev =>
      let m := m.modifyAction .IdleState fun a => { a with time := 0 }
      let m := m.modifyAction .IdleState fun a => { a with enabled := true }
      let m := m.setEffectiveTimeScale .IdleState 1
      let m := m.setEffectiveWeight .IdleState 1
      let m := m.crossFadeFrom .IdleState prev.cls (1/2) true
      m.play .IdleState
  | none => m.play .IdleState

end IdleState

namespace WalkState

/-- `WalkState.Enter(prevState)` (lines 318-338): paired with `"run"`. -/
def Enter (fl : ℚ → ℚ) (prevState : Option StateObj) (m : CharacterFSM) : CharacterFSM :=
  gaitEnter fl .WalkState .RunState prevState m

end WalkState

namespace RunState

/-- `RunState.Enter(prevState)` (lines 358-378): paired with `"walk"`. -/
def Enter (fl : ℚ → ℚ) (prevState : Option StateObj) (m : CharacterFSM) : CharacterFSM :=
  gaitEnter fl .RunState .WalkState prevState m

end RunState

namespace RunBackwardsState

/-- `RunBackwardsState.Enter(prevState)` (lines 397-418): paired with `"walkback"`. -/
def Enter (fl : ℚ → ℚ) (prevState : Option StateObj) (m : CharacterFSM) : CharacterFSM :=
  gaitEnter fl .RunBackwardsState .WalkBackState prevState m

end RunBackwardsState

namespace WalkBackState

/-- `WalkBackState.Enter(prevState)` (lines 438-459): paired with `"runbackwards"`. -/
def Enter (fl : ℚ → ℚ) (prevState : Option StateObj) (m : CharacterFSM) : CharacterFSM :=
  gaitEnter fl .WalkBackState .RunBackwardsState prevState m

end WalkBackState

namespace AttackState

/-- `AttackState.Enter(prevState)` (lines 484-519) on the instance `self`. -/
def Enter (self : StateObj) (prevState : Option StateObj) (m : CharacterFSM) : CharacterFSM :=
  -- if (this._finishedCallback) removeEventListener("finished", this._finishedCallback)
  let m :=
    match self._finishedCallback with
    | some old => m.removeEventListener old
    | none => m
  -- this._finishedCallback = (e) => { ... }
  let cb : Callback := { id := m.nextId, owner := self.id }
  let m := { m with nextId := m.nextId + 1 }
  let m := m.setFinishedCallback self.id (some cb)
  -- addEventListener("finished", this._finishedCallback)
  let m := m.addEventListener cb
  let m := m.modifyAction .AttackState fun a => { a with enabled := true }
  let m := m.modifyAction .AttackState fun a => { a with loop := .LoopOnce }
  let m := m.modifyAction .AttackState fun a => { a with clampWhenFinished := true }
  let m := m.modifyAction .AttackState fun a => { a with time := 0 }
  let m := m.reset .AttackState
  let m := m.setEffectiveTimeScale .AttackState 1
  let m := m.setEffectiveWeight .AttackState 1
  let m :=
    match prevState with
    | some prev => m.crossFadeFrom .AttackState prev.cls (1/2) true
    | none => m
  m.play .AttackState

/-- `AttackState.Exit()` (lines 521-529) on the instance `self`. -/
def Exit (self : StateObj) (m : CharacterFSM) : CharacterFSM :=
  match self._finishedCallback with
  | some cb => (m.removeEventListener cb).setFinishedCallback self.id none
  | none => m

end AttackState

/-- Dynamic dispatch of `state.Enter(prevState)`. -/
def StateObj.Enter (fl : ℚ → ℚ) (self : StateObj) (prevState : Option StateObj)
    (m : CharacterFSM) : CharacterFSM :=
  match self.cls with
  | .IdleState => IdleState.Enter prevState m
  | .WalkState => WalkState.Enter fl prevState m
  | .RunState => RunState.Enter fl prevState m
  | .RunBackwardsState => RunBackwardsState.Enter fl prevState m
  | .WalkBackState => WalkBackState.Enter fl prevState m
  | .AttackState => AttackState.Enter self prevState m

/-- Dynamic dispatch of `state.Exit()`: empty for every class except `AttackState`. -/
def StateObj.Exit (self : StateObj) (m : CharacterFSM) : CharacterFSM :=
  match self.cls with
  | .AttackState => AttackState.Exit self m
  | _ => m

/-! ## `FiniteStateMachine` -/

namespace FiniteStateMachine

/-- `_AddState(name, type)`: `this._states[name] = type`; the newest binding of a name is
the one found. -/
def _AddState (states : List (String × StateClass)) (name : String) (type : StateClass) :
    List (String × StateClass) :=
  (name, type) :: states

end FiniteStateMachine

namespace CharacterFSM

/-- The `_states` table built by the constructor of `CharacterFSM` (lines 256-261). -/
def _states : List (String × StateClass) :=
  let s : List (String × StateClass) := []
  let s := FiniteStateMachine._AddState s "idle" .IdleState
  let s := FiniteStateMachine._AddState s "walk" .WalkState
  let s := FiniteStateMachine._AddState s "run" .RunState
  let s := FiniteStateMachine._AddState s "runbackwards" .RunBackwardsState
  let s := FiniteStateMachine._AddState s "walkback" .WalkBackState
  FiniteStateMachine._AddState s "attack" .AttackState

/-- The names registered in `_states`. -/
def registeredNames : List String := _states.map Prod.fst

/-- The machine right after `new CharacterFSM(proxy)`: no active state, no listener. -/
def new (animations : AnimationSet) : CharacterFSM :=
  { _currentState := none, _proxy := animations, listeners := [], nextId := 0, trace := [] }

end CharacterFSM

/-- What the property read `this._states[name]` can produce that `new` accepts. -/
inductive Constructor
  | stateClass (c : StateClass)
  | Object
  deriving DecidableEq, Repr

namespace FiniteStateMachine

/-- The property read `this._states[name]` on the plain object `_states`: an own
property, else the inherited `constructor` (which is `Object`); every other inherited
member of `Object.prototype`, like a missing property, is not a constructor (`none`). -/
def lookup (name : String) : Option Constructor :=
  match CharacterFSM._states.lookup name with
  | some c => some (.stateClass c)
  | none => if name = "constructor" then some .Object else none

/-- Lines 239-241 of `SetState`: construct, assign, enter. -/
def activate (fl : ℚ → ℚ) (name : String) (prevState : Option StateObj) (m : CharacterFSM) :
    Outcome :=
  match lookup name with
  | none =>
      -- `new undefined(this)`: TypeError, nothing assigned
      .threw .TypeError m
  | some .Object =>
      -- `new Object(this)` is `this`; it is assigned, then `state.Enter` is not a function
      .threw .TypeError { m with _currentState := some .fsm }
  | some (.stateClass c) =>
      let state : StateObj := { id := m.nextId, cls := c, _finishedCallback := none }
      let m := ({ m with nextId := m.nextId + 1 }).log (.construct c state.id)
      let m := ({ m with _currentState := some (.state state) }).log (.assign state.id)
      let m := m.log (.Enter state.id (prevState.map StateObj.id))
      .ok (state.Enter fl prevState m)

/-- `SetState(name)` (lines 232-242). -/
def SetState (fl : ℚ → ℚ) (name : String) (m : CharacterFSM) : Outcome :=
  match m._currentState with
  | none => activate fl name none m
  | some (.state prevState) =>
      if prevState.Name = name then .ok m
      else
        let m := m.log (.Exit prevState.id)
        let m := prevState.Exit m
        activate fl name (some (m.deref prevState)) m
  | some .fsm =>
      -- `prevState.Name` is `undefined`, and `prevState.Exit` is not a function
      .threw .TypeError m

end FiniteStateMachine

/-! ## State classes: `Update` -/

/-- `IdleState.Update(_, input)` (lines 298-308): three independent `if` statements,
each calling `this._parent.SetState`. -/
def IdleState.Update (fl : ℚ → ℚ) (input : BasicCharacterControllerInput)
    (m : CharacterFSM) : Outcome :=
  let afterForward :=
    if input._keys.forward then FiniteStateMachine.SetState fl "walk" m else .ok m
  afterForward.andThen fun m =>
    let afterBackward :=
      if input._keys.backward then FiniteStateMachine.SetState fl "walkback" m else .ok m
    afterBackward.andThen fun m =>
      if input._keys.space then FiniteStateMachine.SetState fl "attack" m else .ok m

/-- `WalkState.Update(_, input)` (lines 340-348). -/
def WalkState.Update (fl : ℚ → ℚ) (input : BasicCharacterControllerInput)
    (m : CharacterFSM) : Outcome :=
  if input._keys.forward then
    if input._keys.shift then FiniteStateMachine.SetState fl "run" m else .ok m
  else FiniteStateMachine.SetState fl "idle" m

/-- `RunState.Update(_, input)` (lines 380-388). -/
def RunState.Update (fl : ℚ → ℚ) (input : BasicCharacterControllerInput)
    (m : CharacterFSM) : Outcome :=
  if input._keys.forward then
    if !input._keys.shift then FiniteStateMachine.SetState fl "walk" m else .ok m
  else FiniteStateMachine.SetState fl "idle" m

/-- `RunBackwardsState.Update(_, input)` (lines 420-429). -/
def RunBackwardsState.Update (fl : ℚ → ℚ) (input : BasicCharacterControllerInput)
    (m : CharacterFSM) :
    Outcome :=
  if input._keys.backward then
    if !input._keys.shift then FiniteStateMachine.SetState fl "walkback" m else .ok m
  else FiniteStateMachine.SetState fl "idle" m

/-- `WalkBackState.Update(_, input)` (lines 461-471). -/
def WalkBackState.Update (fl : ℚ → ℚ) (input : BasicCharacterControllerInput)
    (m : CharacterFSM) : Outcome :=
  if input._keys.backward then
    if input._keys.shift then FiniteStateMachine.SetState fl "runbackwards" m else .ok m
  else FiniteStateMachine.SetState fl "idle" m

/-- `AttackState.Update(_, input)` (lines 531-534): only logs to the console. -/
def AttackState.Update (_input : BasicCharacterControllerInput) (m : CharacterFSM) : Outcome :=
  .ok m

/-- Dynamic dispatch of `state.Update(timeElapsed, input)`; every class ignores the
first argument. -/
def StateObj.Update (fl : ℚ → ℚ) (self : StateObj) (_timeElapsed : ℚ)
    (input : BasicCharacterControllerInput) (m : CharacterFSM) : Outcome :=
  match self.cls with
  | .IdleState => IdleState.Update fl input m
  | .WalkState => WalkState.Update fl input m
  | .RunState => RunState.Update fl input m
  | .RunBackwardsState => RunBackwardsState.Update fl input m
  | .WalkBackState => WalkBackState.Update fl input m
  | .AttackState => AttackState.Update input m

/-- `FiniteStateMachine.Update(timeElapsed, input)` (lines 243-247).  When `_currentState`
is the machine itself the call re-enters `Update` without end and the runtime throws a
`RangeError`. -/
def FiniteStateMachine.Update (fl : ℚ → ℚ) (timeElapsed : ℚ)
    (input : BasicCharacterControllerInput) (m : CharacterFSM) : Outcome :=
  match m._currentState with
  | none => .ok m
  | some (.state s) => s.Update fl timeElapsed input m
  | some .fsm => .threw .RangeError m

/-! ## Completion notification -/

/-- Invocation of a completion callback, the closure of lines 494-499:
`if (this._parent._currentState.Name === "attack") this._parent.SetState("idle")`.
The closure reaches the machine through `this._parent`; nothing else of the captured
instance is read. -/
def Callback.call (fl : ℚ → ℚ) (_cb : Callback) (m : CharacterFSM) : Outcome :=
  match m._currentState with
  | none => .threw .TypeError m
  | some .fsm => .ok m
  | some (.state s) =>
      if s.Name = "attack" then FiniteStateMachine.SetState fl "idle" m else .ok m

/-- The mixer dispatching its `"finished"` event: the dispatcher copies the listener
array and calls the copies in order. -/
def dispatchFinished (fl : ℚ → ℚ) (m : CharacterFSM) : Outcome :=
  m.listeners.foldl (fun o cb => o.andThen (cb.call fl)) (.ok m)

/-! ## Observations -/

/-- Name of the active state, when a state instance is active. -/
def CharacterFSM.activeName (m : CharacterFSM) : Option String :=
  match m._currentState with
  | some (.state s) => some s.Name
  | _ => none

/-- Class of the active state, when a state instance is active. -/
def CharacterFSM.activeClass (m : CharacterFSM) : Option StateClass :=
  match m._currentState with
  | some (.state s) => some s.cls
  | _ => none

/-- The lifecycle part of a log. -/
def lifecycle (t : List Event) : List Event := t.filter Event.isLifecycle

/-! ## Sample data -/

/-- An action as the mixer hands it out: time 0, enabled, unit time scale and weight. -/
def sampleAction : AnimationAction :=
  { time := 0, enabled := true, timeScale := 1, weight := 1, loop := .LoopRepeat,
    clampWhenFinished := false }

/-- Six clips of distinct durations (dyadic, so numbers of every binary arithmetic), all
actions fresh. -/
def sampleAnimations : AnimationSet :=
  { idle := { clip := { duration := 4 }, action := sampleAction }
    walk := { clip := { duration := 1 }, action := sampleAction }
    run := { clip := { duration := 5/8 }, action := sampleAction }
    runbackwards := { clip := { duration := 3/4 }, action := sampleAction }
    walkback := { clip := { duration := 5/4 }, action := sampleAction }
    attack := { clip := { duration := 2 }, action := sampleAction } }

/-- No key held. -/
def noKeys : Keys :=
  { forward := false, backward := false, left := false, right := false, shift := false,
    space := false }

/-- The machine after startup: `SetState("idle")` on a fresh machine (line 46). -/
def idleMachine (fl : ℚ → ℚ) : CharacterFSM :=
  (FiniteStateMachine.SetState fl "idle" (CharacterFSM.new sampleAnimations)).machine

/-! ## Numbers of the controller

The arithmetic is modelled on rationals with explicit rounding: the result of every
JavaScript arithmetic operation and, in the controller, every decimal literal passes
through a function `fl : ℚ → ℚ`.  With `fl := id` the arithmetic is exact; with
`fl := Float64.round` it is the binary64 arithmetic of JavaScript (round to nearest, ties to
even) as long as no result leaves the normal range.  `Math.sign`, `Math.abs`, `Math.min` and
negation are exact in both.
Rotations and unit vectors need `sin` and `cos`; the transform of the model is therefore kept
symbolically, as the list of rotations and displacements written to it. -/

/-- `Math.PI`: the binary64 number nearest to π. -/
def Math.PI : ℚ := 884279719003555 / 281474976710656

/-- `Math.sign(x)`. -/
def Math.sign (x : ℚ) : ℚ := if 0 < x then 1 else if x < 0 then -1 else 0

/-- `Math.abs(x)`. -/
def Math.abs (x : ℚ) : ℚ := |x|

/-- `Math.min(a, b)`. -/
def Math.min (a b : ℚ) : ℚ := Min.min a b

namespace Float64

/-- Exponent `e` with `2^52 ≤ a / 2^e < 2^53` for `a > 0`, found by doubling or halving
at most `fuel` times. -/
def scale : Nat → ℚ → Int → Int
  | 0, _, e => e
  | fuel + 1, a, e =>
      if a < 2 ^ 52 then scale fuel (a * 2) (e - 1)
      else if 2 ^ 53 ≤ a then scale fuel (a / 2) (e + 1)
      else e

/-- Nearest integer to `n ≥ 0`, ties to even. -/
def roundInt (n : ℚ) : Int :=
  let f := ⌊n⌋
  let r := n - f
  if r < 1 / 2 then f else if 1 / 2 < r then f + 1 else if f % 2 = 0 then f else f + 1

/-- Rounding of a rational to binary64 (53 significant bits, round to nearest, ties to
even); unbounded exponent, so exact for results in the normal range. -/
def round (x : ℚ) : ℚ :=
  if x = 0 then 0
  else
    let e := scale 2200 |x| 0
    (if x < 0 then -1 else 1) * (roundInt (|x| / 2 ^ e) : ℚ) * 2 ^ e

end Float64

/-- Laws of a rounding function that the proofs about the deceleration step use; exact
arithmetic (`id`) satisfies them. -/
structure Rounding (fl : ℚ → ℚ) : Prop where
  zero : fl 0 = 0
  neg : ∀ x, fl (-x) = -fl x
  mono : ∀ x y, x ≤ y → fl x ≤ fl y
  idem : ∀ x, fl (fl x) = fl x

/-! ## Input handlers -/

namespace BasicCharacterControllerInput

/-- The input object right after construction (lines 164-171): no key held. -/
def new : BasicCharacterControllerInput :=
  { _keys := noKeys }

/-- `_onKeyDown(e)` (lines 176-198), `keyCode` being `e.keyCode`. -/
def _onKeyDown (keyCode : Int) (i : BasicCharacterControllerInput) :
    BasicCharacterControllerInput :=
  if keyCode = 87 then { i with _keys := { i._keys with forward := true } }
  else if keyCode = 83 then { i with _keys := { i._keys with backward := true } }
  else if keyCode = 65 then { i with _keys := { i._keys with left := true } }
  else if keyCode = 68 then { i with _keys := { i._keys with right := true } }
  else if keyCode = 16 then { i with _keys := { i._keys with shift := true } }
  else if keyCode = 32 then
    (if !i._keys.space then { i with _keys := { i._keys with space := true } } else i)
  else i

/-- `_onKeyUp(e)` (lines 199-220), `keyCode` being `e.keyCode`. -/
def _onKeyUp (keyCode : Int) (i : BasicCharacterControllerInput) :
    BasicCharacterControllerInput :=
  if keyCode = 87 then { i with _keys := { i._keys with forward := false } }
  else if keyCode = 83 then { i with _keys := { i._keys with backward := false } }
  else if keyCode = 65 then { i with _keys := { i._keys with left := false } }
  else if keyCode = 68 then { i with _keys := { i._keys with right := false } }
  else if keyCode = 16 then { i with _keys := { i._keys with shift := false } }
  else if keyCode = 32 then { i with _keys := { i._keys with space := false } }
  else i

end BasicCharacterControllerInput

/-! ## Character controller -/

/-- A `THREE.Vector3`. -/
structure THREE.Vector3 where
  x : ℚ
  y : ℚ
  z : ℚ
  deriving DecidableEq, Repr

/-- `v.multiplyScalar(s)`. -/
def THREE.Vector3.multiplyScalar (fl : ℚ → ℚ) (v : THREE.Vector3) (s : ℚ) : THREE.Vector3 :=
  { x := fl (v.x * s), y := fl (v.y * s), z := fl (v.z * s) }

/-- `v.add(w)`. -/
def THREE.Vector3.add (fl : ℚ → ℚ) (v w : THREE.Vector3) : THREE.Vector3 :=
  { x := fl (v.x + w.x), y := fl (v.y + w.y), z := fl (v.z + w.z) }

/-- The two local axes along which `Update` moves the character. -/
inductive Axis
  | forward
  | sideways
  deriving DecidableEq, Repr

/-- One `position.add(u)`: `u` is the unit vector of `axis` turned by the orientation
`heading` and scaled by `amount`. -/
structure Displacement where
  heading : List ℚ
  axis : Axis
  amount : ℚ
  deriving DecidableEq, Repr

/-- The transform of the loaded model `_target`.  `quaternion` is the list of the angles
(radians) of the rotations about the up axis multiplied onto the model's initial
orientation, oldest first; `position` is the list of displacements added to the initial
position, oldest first. -/
structure Object3D where
  quaternion : List ℚ
  position : List Displacement
  deriving DecidableEq, Repr

/-- The animation mixer's clock. -/
structure AnimationMixer where
  time : ℚ
  deriving DecidableEq, Repr

/-- What the animation host does inside one `mixer.update(dt)`, which the source does not
determine: how it changes the actions, and whether it dispatches `"finished"`. -/
structure MixerFrame where
  actions : AnimationSet → AnimationSet
  finished : Bool

/-- The fields of `BasicCharacterController` (lines 19-30 and 40-43); `_target` and `_mixer`
are `none` until the model is loaded. -/
structure BasicCharacterController where
  _deceleration : THREE.Vector3
  _acceleration : THREE.Vector3
  _velocity : THREE.Vector3
  _input : BasicCharacterControllerInput
  _stateMachine : CharacterFSM
  _target : Option Object3D
  _mixer : Option AnimationMixer
  deriving DecidableEq, Repr

/-- Result of a controller call: normal return, or a throw, with the controller at that
moment. -/
inductive ControllerOutcome
  | ok (c : BasicCharacterController)
  | threw (e : JsError) (c : BasicCharacterController)
  deriving DecidableEq, Repr

/-- The controller after the call, however it ended. -/
def ControllerOutcome.controller : ControllerOutcome → BasicCharacterController
  | .ok c => c
  | .threw _ c => c

/-- Whether the call returned normally. -/
def ControllerOutcome.returned : ControllerOutcome → Bool
  | .ok _ => true
  | .threw _ _ => false

namespace BasicCharacterController

/-- The constructor (lines 19-30), before any model is loaded. -/
def new (fl : ℚ → ℚ) (animations : AnimationSet) : BasicCharacterController :=
  { _deceleration := { x := -fl (5 / 10000), y := -fl (1 / 10000), z := -fl 5 }
    _acceleration := { x := fl 1, y := fl (1 / 4), z := fl 50 }
    _velocity := { x := fl 0, y := fl 0, z := fl 0 }
    _input := BasicCharacterControllerInput.new
    _stateMachine := CharacterFSM.new animations
    _target := none
    _mixer := none }

/-- Lines 86-94: the frame deceleration vector. -/
def frameDeceleration (fl : ℚ → ℚ) (velocity deceleration : THREE.Vector3) (timeInSeconds : ℚ) :
    THREE.Vector3 :=
  let frameDeceleration : THREE.Vector3 :=
    { x := fl (velocity.x * deceleration.x)
      y := fl (velocity.y * deceleration.y)
      z := fl (velocity.z * deceleration.z) }
  let frameDeceleration := frameDeceleration.multiplyScalar fl timeInSeconds
  { frameDeceleration with
    z := fl (Math.sign frameDeceleration.z *
      Math.min (Math.abs frameDeceleration.z) (Math.abs velocity.z)) }

/-- Lines 85-96: the velocity right after the deceleration step. -/
def decelerated (fl : ℚ → ℚ) (timeInSeconds : ℚ) (c : BasicCharacterController) : THREE.Vector3 :=
  c._velocity.add fl (frameDeceleration fl c._velocity c._deceleration timeInSeconds)

/-- Lines 102-106: this frame's acceleration, a scaled copy when shift is held. -/
def effectiveAcceleration (fl : ℚ → ℚ) (c : BasicCharacterController) : THREE.Vector3 :=
  if c._input._keys.shift then c._acceleration.multiplyScalar fl (fl 3) else c._acceleration

/-- Lines 116-132: the rotations multiplied onto `_R`, in order: left, then right. -/
def turns (fl : ℚ → ℚ) (timeInSeconds : ℚ) (c : BasicCharacterController) : List ℚ :=
  (if c._input._keys.left then
      [fl (fl (fl (fl 4 * Math.PI) * timeInSeconds) * c._acceleration.y)] else []) ++
    (if c._input._keys.right then
      [fl (fl (fl (fl 4 * -Math.PI) * timeInSeconds) * c._acceleration.y)] else [])

/-- Lines 85-114: the velocity at the end of the frame: deceleration, then the forward
key, then the backward key. -/
def frameVelocity (fl : ℚ → ℚ) (timeInSeconds : ℚ) (c : BasicCharacterController) :
    THREE.Vector3 :=
  let velocity := decelerated fl timeInSeconds c
  let acc := effectiveAcceleration fl c
  let velocity :=
    if c._input._keys.forward then
      { velocity with z := fl (velocity.z + fl (acc.z * timeInSeconds)) }
    else velocity
  if c._input._keys.backward then
    { velocity with z := fl (velocity.z - fl (acc.z * timeInSeconds)) }
  else velocity

/-- `Update(timeInSeconds)` (lines 82-158).  `host` is what the mixer does in this
frame. -/
def Update (fl : ℚ → ℚ) (timeInSeconds : ℚ) (host : MixerFrame)
    (c : BasicCharacterController) : ControllerOutcome :=
  match c._target with
  | none => .ok c
  | some controlObject =>
    match FiniteStateMachine.Update fl timeInSeconds c._input c._stateMachine with
    | .threw e m => .threw e { c with _stateMachine := m }
    | .ok m =>
      let c := { c with _stateMachine := m }
      let velocity := frameVelocity fl timeInSeconds c
      let _R := controlObject.quaternion ++ turns fl timeInSeconds c
      let sideways : Displacement :=
        { heading := _R, axis := .sideways, amount := fl (velocity.x * timeInSeconds) }
      let forward : Displacement :=
        { heading := _R, axis := .forward, amount := fl (velocity.z * timeInSeconds) }
      let controlObject : Object3D :=
        { quaternion := _R, position := controlObject.position ++ [forward, sideways] }
      let c := { c with _velocity := velocity, _target := some controlObject }
      match c._mixer with
      | none => .ok c
      | some mixer =>
        let c := { c with _mixer := some { time := fl (mixer.time + timeInSeconds) } }
        let m := { c._stateMachine with _proxy := host.actions c._stateMachine._proxy }
        if host.finished then
          match dispatchFinished fl m with
          | .ok m => .ok { c with _stateMachine := m }
          | .threw e m => .threw e { c with _stateMachine := m }
        else .ok { c with _stateMachine := m }

end BasicCharacterController

/-- One rendered frame: the keys held when the frame starts, the elapsed seconds, and what
the mixer does. -/
structure Frame where
  keys : Keys
  timeInSeconds : ℚ
  host : MixerFrame

/-- One frame: the key handlers have left `keys` in `_input`, then `Update` runs; the next
frame follows whether or not this one threw (the frame loop re-arms itself first,
line 622). -/
def BasicCharacterController.step (fl : ℚ → ℚ) (c : BasicCharacterController) (f : Frame) :
    BasicCharacterController :=
  (BasicCharacterController.Update fl f.timeInSeconds f.host
    { c with _input := { _keys := f.keys } }).controller

/-- A finite sequence of frames. -/
def BasicCharacterController.run (fl : ℚ → ℚ) (frames : List Frame)
    (c : BasicCharacterController) : BasicCharacterController :=
  frames.foldl (BasicCharacterController.step fl) c

/-- A host frame that changes nothing and dispatches nothing. -/
def quietHost : MixerFrame := { actions := fun a => a, finished := false }

/-- The controller once the model and the animations are loaded and `onLoad` has run
`SetState("idle")` (lines 40-47). -/
def loadedController (fl : ℚ → ℚ) : BasicCharacterController :=
  { BasicCharacterController.new fl sampleAnimations with
    _stateMachine := idleMachine fl
    _target := some { quaternion := [], position := [] }
    _mixer := some { time := 0 } }

/-! ## Derived notions used in the statements -/

/-- The control part of a machine: everything except the animation actions and the
host-call entries of the log. -/
structure SameControl (m m' : CharacterFSM) : Prop where
  currentState : m'._currentState = m._currentState
  listeners : m'.listeners = m.listeners
  nextId : m'.nextId = m.nextId
  lifecycle : lifecycle m'.trace = lifecycle m.trace

/-- The listener array after `Exit` of the instance `s`. -/
def listenersAfterExit (s : StateObj) (l : List Callback) : List Callback :=
  match s.cls, s._finishedCallback with
  | .AttackState, some cb => l.erase cb
  | _, _ => l

/-- The machine with `AttackState` active, entered from idle. -/
def attackMachine (fl : ℚ → ℚ) : CharacterFSM :=
  (FiniteStateMachine.SetState fl "attack" (idleMachine fl)).machine

/-- Allocation number of the active state instance. -/
def CharacterFSM.activeId (m : CharacterFSM) : Option Nat :=
  match m._currentState with
  | some (.state s) => some s.id
  | _ => none

/-- The machine after a first Attack activation was entered and exited and a second one
entered: idle, attack, idle, attack. -/
def secondAttackMachine (fl : ℚ → ℚ) : CharacterFSM :=
  (FiniteStateMachine.SetState fl "attack"
    (FiniteStateMachine.SetState fl "idle" (attackMachine fl)).machine).machine

/-- The callback stored in the active instance's `_finishedCallback`, if any. -/
def CharacterFSM.activeCallback (m : CharacterFSM) : Option Callback :=
  match m._currentState with
  | some (.state s) => s._finishedCallback
  | _ => none

/-- Machines reachable from the empty machine `new CharacterFSM(proxy)` by `SetState` with
registered names, `Update` with arbitrary input, completion notifications delivered to the
registered listeners (all of them, or one of them), and the animation host changing the
actions in between (its clock advancing). -/
inductive Reachable (fl : ℚ → ℚ) (animations : AnimationSet) : CharacterFSM → Prop
  | start : Reachable fl animations (CharacterFSM.new animations)
  | setState (m : CharacterFSM) (name : String) :
      Reachable fl animations m → name ∈ CharacterFSM.registeredNames →
      Reachable fl animations (FiniteStateMachine.SetState fl name m).machine
  | update (m : CharacterFSM) (dt : ℚ) (input : BasicCharacterControllerInput) :
      Reachable fl animations m →
      Reachable fl animations (FiniteStateMachine.Update fl dt input m).machine
  | finished (m : CharacterFSM) :
      Reachable fl animations m → Reachable fl animations (dispatchFinished fl m).machine
  | notify (m : CharacterFSM) (cb : Callback) :
      Reachable fl animations m → cb ∈ m.listeners → Reachable fl animations (cb.call fl m).machine
  | host (m : CharacterFSM) (actions : AnimationSet) :
      Reachable fl animations m → Reachable fl animations { m with _proxy := actions }

/-- The pairing invariant: the listener array holds exactly the active instance's callback,
and the active instance has a callback exactly when it is an `AttackState`. -/
def ListenerPairing (m : CharacterFSM) : Prop :=
  match m._currentState with
  | none => m.listeners = []
  | some .fsm => False
  | some (.state s) =>
      m.listeners = s._finishedCallback.toList ∧
        (s._finishedCallback.isSome = true ↔ s.cls = .AttackState)

/-- The input-driven round trip Idle, Walk, Run, Walk, Idle, as the list of machines after
each `Update` (frames of 1/60 s). -/
def roundTrip (fl : ℚ → ℚ) : List CharacterFSM :=
  let m1 := (FiniteStateMachine.Update fl (1/60) ⟨{ noKeys with forward := true }⟩
    (idleMachine fl)).machine
  let m2 := (FiniteStateMachine.Update fl (1/60)
    ⟨{ noKeys with forward := true, shift := true }⟩ m1).machine
  let m3 := (FiniteStateMachine.Update fl (1/60) ⟨{ noKeys with forward := true }⟩ m2).machine
  let m4 := (FiniteStateMachine.Update fl (1/60) ⟨noKeys⟩ m3).machine
  [idleMachine fl, m1, m2, m3, m4]

/-- The paired predecessor of a gait state: the class whose name its `Enter` compares
`prevState.Name` with (lines 324, 364, 404, 445); `IdleState` and `AttackState` have
none. -/
def pairedPredecessor : StateClass → Option StateClass
  | .WalkState => some .RunState
  | .RunState => some .WalkState
  | .RunBackwardsState => some .WalkBackState
  | .WalkBackState => some .RunBackwardsState
  | _ => none

/-- Clips with walk lasting `1.0` s and run lasting `0.6` s, the literals rounded by `fl`. -/
def gaitAnimations (fl : ℚ → ℚ) : AnimationSet :=
  { sampleAnimations with
    walk := { clip := { duration := fl 1 }, action := sampleAction }
    run := { clip := { duration := fl (3 / 5) }, action := sampleAction } }

/-- Walk active on `gaitAnimations`, the walk action `0.4` s into its clip. -/
def walkingMachine (fl : ℚ → ℚ) : CharacterFSM :=
  (FiniteStateMachine.SetState fl "walk"
    (FiniteStateMachine.SetState fl "idle"
      (CharacterFSM.new (gaitAnimations fl))).machine).machine.modifyAction .WalkState
    fun a => { a with time := fl (2 / 5) }

/-- What can happen to the state machine after a failed `SetState`: a frame update or a
completion notification from the mixer. -/
inductive MachineEvent
  | update (timeElapsed : ℚ) (input : BasicCharacterControllerInput)
  | finished

/-- The machine after one event, however the call ended. -/
def MachineEvent.apply (fl : ℚ → ℚ) (e : MachineEvent) (m : CharacterFSM) : CharacterFSM :=
  match e with
  | .update timeElapsed input => (FiniteStateMachine.Update fl timeElapsed input m).machine
  | .finished => (dispatchFinished fl m).machine

/-- The machine after a sequence of events. -/
def runEvents (fl : ℚ → ℚ) (es : List MachineEvent) (m : CharacterFSM) : CharacterFSM :=
  es.foldl (fun m e => e.apply fl m) m

/-- An input with forward and shift held. -/
def sampleInput : BasicCharacterControllerInput :=
  { _keys := { noKeys with forward := true, shift := true } }

/-- The loaded controller moving forward at `v` units per second. -/
def movingController (fl : ℚ → ℚ) (v : ℚ) : BasicCharacterController :=
  { loadedController fl with _velocity := { x := 0, y := 0, z := v } }

/-- A frame of 0.02 s (the binary64 number written `0.02`) with a quiet host. -/
def frame50 (keys : Keys) : Frame :=
  { keys := keys, timeInSeconds := Float64.round (1 / 50), host := quietHost }

/-- The loaded controller, in binary64 arithmetic, after one frame of 0.02 s with forward
held, at the moment the next frame starts with forward and backward both held. -/
def bothKeysController : BasicCharacterController :=
  { BasicCharacterController.run Float64.round [frame50 { noKeys with forward := true }]
      (loadedController Float64.round) with
    _input := { _keys := { noKeys with forward := true, backward := true } } }

/-- The loaded controller, standing, with the given keys held. -/
def standingController (fl : ℚ → ℚ) (keys : Keys) : BasicCharacterController :=
  { loadedController fl with _input := { _keys := keys } }

/-- The amounts of the sideways displacements written to the position so far. -/
def BasicCharacterController.sidewaysAmounts (c : BasicCharacterController) : List ℚ :=
  match c._target with
  | some obj => (obj.position.filter fun d => d.axis = .sideways).map Displacement.amount
  | none => []

/-- No lateral motion: the lateral and vertical velocity components are 0 and every
sideways displacement written so far is 0. -/
structure NoLateral (c : BasicCharacterController) : Prop where
  x : c._velocity.x = 0
  y : c._velocity.y = 0
  sideways : ∀ a ∈ c.sidewaysAmounts, a = 0

/-- Two frames at forward velocity: forward with sprint and turn-left for 1/60 s, then
backward and turn-right for 1/30 s with the mixer dispatching `"finished"`. -/
def sampleFrames : List Frame :=
  [{ keys := { noKeys with forward := true, shift := true, left := true }
     timeInSeconds := Float64.round (1 / 60)
     host := quietHost },
   { keys := { noKeys with backward := true, right := true }
     timeInSeconds := Float64.round (1 / 30)
     host := { actions := fun a => a, finished := true } }]

/-- Run active on clips with walk lasting `1.2` s and run lasting `0.8` s (the literals
rounded by `fl`), the run action `0.3` s into its clip. -/
def slowingMachine (fl : ℚ → ℚ) : CharacterFSM :=
  (FiniteStateMachine.SetState fl "run"
    (FiniteStateMachine.SetState fl "idle"
      (CharacterFSM.new
        { sampleAnimations with
          walk := { clip := { duration := fl (6 / 5) }, action := sampleAction }
          run := { clip := { duration := fl (4 / 5) }, action := sampleAction } })).machine
    ).machine.modifyAction .RunState fun a => { a with time := fl (3 / 10) }

/-! ## Basic facts -/

theorem StateClass.Name_inj (c d : StateClass) : c.Name = d.Name ↔ c = d := by
  cases c <;> cases d <;> decide

theorem FiniteStateMachine.lookup_Name (c : StateClass) :
    FiniteStateMachine.lookup c.Name = some (.stateClass c) := by
  cases c <;> decide

theorem CharacterFSM.mem_registeredNames (name : String) :
    name ∈ CharacterFSM.registeredNames ↔ ∃ c : StateClass, c.Name = name := by
  constructor
  · intro h
    simp [CharacterFSM.registeredNames, CharacterFSM._states,
      FiniteStateMachine._AddState] at h
    rcases h with h | h | h | h | h | h
    · exact ⟨.AttackState, h.symm⟩
    · exact ⟨.WalkBackState, h.symm⟩
    · exact ⟨.RunBackwardsState, h.symm⟩
    · exact ⟨.RunState, h.symm⟩
    · exact ⟨.WalkState, h.symm⟩
    · exact ⟨.IdleState, h.symm⟩
  · rintro ⟨c, rfl⟩
    cases c <;> decide

theorem FiniteStateMachine.lookup_unregistered (name : String)
    (h : name ∉ CharacterFSM.registeredNames) :
    FiniteStateMachine.lookup name = none ∨ FiniteStateMachine.lookup name = some .Object := by
  have h' : CharacterFSM._states.lookup name = none := by
    simp [CharacterFSM.registeredNames, CharacterFSM._states,
      FiniteStateMachine._AddState] at h
    obtain ⟨h1, h2, h3, h4, h5, h6⟩ := h
    have e1 : (name == "attack") = false := by simpa using h1
    have e2 : (name == "walkback") = false := by simpa using h2
    have e3 : (name == "runbackwards") = false := by simpa using h3
    have e4 : (name == "run") = false := by simpa using h4
    have e5 : (name == "walk") = false := by simpa using h5
    have e6 : (name == "idle") = false := by simpa using h6
    simp only [CharacterFSM._states, FiniteStateMachine._AddState, List.lookup, e1, e2, e3, e4,
      e5, e6]
  unfold FiniteStateMachine.lookup
  rw [h']
  by_cases hc : name = "constructor"
  · right; simp [hc]
  · left; simp [hc]

/-! ## What `Enter` and `Exit` leave alone -/

theorem gaitEnter_sameControl (fl : ℚ → ℚ) (self paired : StateClass) (prevState : Option StateObj)
    (m : CharacterFSM) : SameControl m (gaitEnter fl self paired prevState m) := by
  cases prevState with
  | none =>
      constructor <;>
        simp [gaitEnter, CharacterFSM.play, CharacterFSM.log, lifecycle, List.filter_append,
          Event.isLifecycle]
  | some prev =>
      by_cases hp : prev.Name = paired.Name <;>
      constructor <;>
        simp [gaitEnter, hp, CharacterFSM.play, CharacterFSM.log, CharacterFSM.crossFadeFrom,
          CharacterFSM.modifyAction, CharacterFSM.setEffectiveTimeScale,
          CharacterFSM.setEffectiveWeight, lifecycle, List.filter_append, Event.isLifecycle]

theorem IdleState.idleEnter_sameControl (prevState : Option StateObj) (m : CharacterFSM) :
    SameControl m (IdleState.Enter prevState m) := by
  cases prevState <;> constructor <;>
    simp [IdleState.Enter, CharacterFSM.play, CharacterFSM.log, CharacterFSM.crossFadeFrom,
      CharacterFSM.modifyAction, CharacterFSM.setEffectiveTimeScale,
      CharacterFSM.setEffectiveWeight, lifecycle, List.filter_append, Event.isLifecycle]

/-- Entering a state of any class but `AttackState` changes neither the active state,
nor the listeners, nor the lifecycle log. -/
theorem StateObj.Enter_sameControl (fl : ℚ → ℚ) (self : StateObj) (h : self.cls ≠ .AttackState)
    (prevState : Option StateObj) (m : CharacterFSM) :
    SameControl m (self.Enter fl prevState m) := by
  unfold StateObj.Enter
  cases hc : self.cls with
  | IdleState => exact IdleState.idleEnter_sameControl prevState m
  | WalkState => exact gaitEnter_sameControl fl _ _ prevState m
  | RunState => exact gaitEnter_sameControl fl _ _ prevState m
  | RunBackwardsState => exact gaitEnter_sameControl fl _ _ prevState m
  | WalkBackState => exact gaitEnter_sameControl fl _ _ prevState m
  | AttackState => exact absurd hc h

/-- Leaving a state of any class but `AttackState` changes nothing at all. -/
theorem StateObj.Exit_of_ne_attack (self : StateObj) (h : self.cls ≠ .AttackState)
    (m : CharacterFSM) : self.Exit m = m := by
  unfold StateObj.Exit
  cases hc : self.cls <;> first | rfl | exact absurd hc h

/-- Effect of `AttackState.Enter` on a freshly constructed, already assigned instance. -/
theorem AttackState.Enter_fresh (n : Nat) (prevState : Option StateObj) (m : CharacterFSM)
    (h : m._currentState =
        some (.state { id := n, cls := .AttackState, _finishedCallback := none })) :
    let cb : Callback := { id := m.nextId, owner := n }
    let m' := AttackState.Enter { id := n, cls := .AttackState, _finishedCallback := none }
      prevState m
    m'._currentState =
        some (.state { id := n, cls := .AttackState, _finishedCallback := some cb }) ∧
      m'.listeners = (if cb ∈ m.listeners then m.listeners else m.listeners ++ [cb]) ∧
      m'.nextId = m.nextId + 1 ∧
      lifecycle m'.trace = lifecycle m.trace := by
  cases prevState <;>
    simp [AttackState.Enter, h, CharacterFSM.play, CharacterFSM.log, CharacterFSM.crossFadeFrom,
      CharacterFSM.modifyAction, CharacterFSM.setEffectiveTimeScale, CharacterFSM.reset,
      CharacterFSM.setEffectiveWeight, CharacterFSM.addEventListener,
      CharacterFSM.setFinishedCallback, lifecycle, List.filter_append, Event.isLifecycle]

/-- Effect of `AttackState.Exit` on the active instance. -/
theorem AttackState.Exit_active (s : StateObj) (m : CharacterFSM)
    (h : m._currentState = some (.state s)) :
    let m' := AttackState.Exit s m
    m'._currentState = some (.state { s with _finishedCallback := none }) ∧
      m'.listeners = (match s._finishedCallback with
        | some cb => m.listeners.erase cb
        | none => m.listeners) ∧
      m'.nextId = m.nextId ∧
      lifecycle m'.trace = lifecycle m.trace := by
  cases hcb : s._finishedCallback with
  | none =>
      have : ({ s with _finishedCallback := none } : StateObj) = s := by
        cases s; simp_all
      simp [AttackState.Exit, hcb, h, this]
  | some cb =>
      simp [AttackState.Exit, hcb, h, CharacterFSM.removeEventListener, CharacterFSM.log,
        CharacterFSM.setFinishedCallback, lifecycle, List.filter_append, Event.isLifecycle]

/-! ## What `SetState` does -/

/-- Lines 239-241 with a registered name: the call returns, the new instance is active and
has the next allocation number, and the lifecycle log grows by construct, assign, enter. -/
theorem FiniteStateMachine.activate_spec (fl : ℚ → ℚ) (c : StateClass) (prevState : Option StateObj)
    (m : CharacterFSM) :
    ∃ m' st, FiniteStateMachine.activate fl c.Name prevState m = .ok m' ∧
      m'._currentState = some (.state st) ∧ st.cls = c ∧ st.id = m.nextId ∧
      lifecycle m'.trace = lifecycle m.trace ++
        [.construct c m.nextId, .assign m.nextId, .Enter m.nextId (prevState.map StateObj.id)] ∧
      (c ≠ .AttackState → st._finishedCallback = none ∧ m'.listeners = m.listeners) ∧
      (c = .AttackState → ∃ cb, st._finishedCallback = some cb ∧
        m'.listeners = (if cb ∈ m.listeners then m.listeners else m.listeners ++ [cb])) := by
  by_cases hc : c = .AttackState
  · subst hc
    have key := AttackState.Enter_fresh m.nextId prevState
      { _currentState := some (.state ⟨m.nextId, .AttackState, none⟩)
        _proxy := m._proxy
        listeners := m.listeners
        nextId := m.nextId + 1
        trace := m.trace ++ [.construct .AttackState m.nextId, .assign m.nextId,
          .Enter m.nextId (prevState.map StateObj.id)] } rfl
    simp only at key
    obtain ⟨k1, k2, _, k4⟩ := key
    refine ⟨_, _, ?_, k1, rfl, rfl, ?_, ?_, ?_⟩
    · simp [FiniteStateMachine.activate, FiniteStateMachine.lookup_Name, StateObj.Enter,
        CharacterFSM.log]
    · rw [k4]
      simp [lifecycle, List.filter_append, Event.isLifecycle]
    · intro h; exact absurd rfl h
    · intro _
      exact ⟨_, rfl, k2⟩
  · have key := StateObj.Enter_sameControl fl
      { id := m.nextId, cls := c, _finishedCallback := none } hc prevState
      { _currentState := some (.state ⟨m.nextId, c, none⟩)
        _proxy := m._proxy
        listeners := m.listeners
        nextId := m.nextId + 1
        trace := m.trace ++ [.construct c m.nextId, .assign m.nextId,
          .Enter m.nextId (prevState.map StateObj.id)] }
    refine ⟨_, _, ?_, key.currentState, rfl, rfl, ?_, ?_, ?_⟩
    · simp [FiniteStateMachine.activate, FiniteStateMachine.lookup_Name, CharacterFSM.log]
    · rw [key.lifecycle]
      simp [lifecycle, List.filter_append, Event.isLifecycle]
    · intro _
      exact ⟨rfl, key.listeners⟩
    · intro h; exact absurd h hc

/-- `Exit` of the active instance, with its log entry. -/
theorem StateObj.Exit_spec (s : StateObj) (m : CharacterFSM)
    (h : m._currentState = some (.state s)) :
    let m' := s.Exit (m.log (.Exit s.id))
    (∃ t, m'._currentState = some (.state t) ∧ t.id = s.id ∧ t.cls = s.cls ∧
        m'.deref s = t) ∧
      m'.listeners = listenersAfterExit s m.listeners ∧
      m'.nextId = m.nextId ∧
      lifecycle m'.trace = lifecycle m.trace ++ [.Exit s.id] := by
  by_cases hc : s.cls = .AttackState
  · have key := AttackState.Exit_active s (m.log (.Exit s.id)) h
    simp only at key
    obtain ⟨k1, k2, k3, k4⟩ := key
    have e : s.Exit (m.log (.Exit s.id)) = AttackState.Exit s (m.log (.Exit s.id)) := by
      simp [StateObj.Exit, hc]
    simp only [e]
    refine ⟨⟨_, k1, rfl, rfl, ?_⟩, ?_, k3, ?_⟩
    · simp [CharacterFSM.deref, k1]
    · rw [k2]
      cases hcb : s._finishedCallback <;> simp [listenersAfterExit, hc, hcb, CharacterFSM.log]
    · rw [k4]
      simp [lifecycle, List.filter_append, Event.isLifecycle, CharacterFSM.log]
  · simp only [StateObj.Exit_of_ne_attack s hc]
    refine ⟨⟨s, h, rfl, rfl, ?_⟩, ?_, rfl, ?_⟩
    · simp [CharacterFSM.deref, CharacterFSM.log, h]
    · cases hk : s.cls <;> simp_all [listenersAfterExit, CharacterFSM.log]
    · simp [lifecycle, List.filter_append, Event.isLifecycle, CharacterFSM.log]

/-- `SetState` with the name of the active instance returns at once. -/
theorem FiniteStateMachine.SetState_same (fl : ℚ → ℚ) (m : CharacterFSM) (s : StateObj)
    (h : m._currentState = some (.state s)) :
    FiniteStateMachine.SetState fl s.Name m = .ok m := by
  simp [FiniteStateMachine.SetState, h]

/-- `SetState` with a registered name, from startup. -/
theorem FiniteStateMachine.SetState_from_none (fl : ℚ → ℚ) (m : CharacterFSM) (c : StateClass)
    (h : m._currentState = none) :
    ∃ m' st, FiniteStateMachine.SetState fl c.Name m = .ok m' ∧
      m'._currentState = some (.state st) ∧ st.cls = c ∧ st.id = m.nextId ∧
      lifecycle m'.trace = lifecycle m.trace ++
        [.construct c m.nextId, .assign m.nextId, .Enter m.nextId none] ∧
      (c ≠ .AttackState → st._finishedCallback = none ∧ m'.listeners = m.listeners) ∧
      (c = .AttackState → ∃ cb, st._finishedCallback = some cb ∧
        m'.listeners = (if cb ∈ m.listeners then m.listeners else m.listeners ++ [cb])) := by
  have e : FiniteStateMachine.SetState fl c.Name m =
      FiniteStateMachine.activate fl c.Name none m := by
    simp [FiniteStateMachine.SetState, h]
  rw [e]
  exact FiniteStateMachine.activate_spec fl c none m

/-- `SetState` with a registered name other than the active instance's. -/
theorem FiniteStateMachine.SetState_from_state (fl : ℚ → ℚ) (m : CharacterFSM) (s : StateObj)
    (c : StateClass) (h : m._currentState = some (.state s)) (hne : s.cls ≠ c) :
    ∃ m' st, FiniteStateMachine.SetState fl c.Name m = .ok m' ∧
      m'._currentState = some (.state st) ∧ st.cls = c ∧ st.id = m.nextId ∧
      lifecycle m'.trace = lifecycle m.trace ++
        [.Exit s.id, .construct c m.nextId, .assign m.nextId, .Enter m.nextId (some s.id)] ∧
      (c ≠ .AttackState → st._finishedCallback = none ∧
        m'.listeners = listenersAfterExit s m.listeners) ∧
      (c = .AttackState → ∃ cb, st._finishedCallback = some cb ∧
        m'.listeners = (if cb ∈ listenersAfterExit s m.listeners
          then listenersAfterExit s m.listeners else listenersAfterExit s m.listeners ++
              [cb])) := by
  have hn : ¬ s.Name = c.Name := by
    intro hh
    exact hne ((StateClass.Name_inj _ _).1 hh)
  have key := StateObj.Exit_spec s m h
  simp only at key
  obtain ⟨⟨t, _, k2, _, k4⟩, k5, k6, k7⟩ := key
  have e : FiniteStateMachine.SetState fl c.Name m =
      FiniteStateMachine.activate fl c.Name (some t) (s.Exit (m.log (.Exit s.id))) := by
    simp [FiniteStateMachine.SetState, h, hn, k4]
  rw [e]
  obtain ⟨m', st, a1, a2, a3, a4, a5, a6, a7⟩ :=
    FiniteStateMachine.activate_spec fl c (some t) (s.Exit (m.log (.Exit s.id)))
  refine ⟨m', st, a1, a2, a3, by rw [a4, k6], ?_, ?_, ?_⟩
  · rw [a5, k7, k6]
    simp [k2]
  · intro hc
    rw [← k5]
    exact a6 hc
  · intro hc
    rw [← k5]
    exact a7 hc

/-- From an active state instance, `SetState` with a registered name returns normally
and leaves an instance of the named class active. -/
theorem FiniteStateMachine.SetState_ok (fl : ℚ → ℚ) (m : CharacterFSM) (s : StateObj)
    (c : StateClass)
    (h : m._currentState = some (.state s)) :
    ∃ m' st, FiniteStateMachine.SetState fl c.Name m = .ok m' ∧
      m'._currentState = some (.state st) ∧ st.cls = c := by
  by_cases hc : s.cls = c
  · refine ⟨m, s, ?_, h, hc⟩
    have := FiniteStateMachine.SetState_same fl m s h
    simpa [StateObj.Name, hc] using this
  · obtain ⟨m', st, a1, a2, a3, _⟩ := FiniteStateMachine.SetState_from_state fl m s c h hc
    exact ⟨m', st, a1, a2, a3⟩

theorem CharacterFSM.activeName_of (m : CharacterFSM) (st : StateObj)
    (h : m._currentState = some (.state st)) : m.activeName = some st.cls.Name := by
  simp [CharacterFSM.activeName, h, StateObj.Name]

theorem CharacterFSM.activeClass_of (m : CharacterFSM) (st : StateObj)
    (h : m._currentState = some (.state st)) : m.activeClass = some st.cls := by
  simp [CharacterFSM.activeClass, h]

/-! ## C1 — Idle with several keys held -/

/-- C1, counterexample: with Idle active and forward and backward both held (attack not held),
one `Update` ends with WalkBackward active, not Walk. -/
theorem idle_forward_backward_ends_walkback :
    (idleMachine Float64.round).activeName = some "idle" ∧
    (FiniteStateMachine.Update Float64.round 0 ⟨{ noKeys with forward := true, backward := true }⟩
      (idleMachine Float64.round)).machine.activeName = some "walkback" ∧
    (FiniteStateMachine.Update Float64.round 0 ⟨{ noKeys with forward := true, backward := true }⟩
      (idleMachine Float64.round)).machine.activeName ≠ some "walk" := by
  decide

/-- C1, amended: with Idle active and forward held together with backward and/or attack, one
`Update` returns normally and the last of the held keys in checking order decides the
active state: Attack if attack is held, otherwise WalkBackward. -/
theorem idle_update_last_held_key_wins (fl : ℚ → ℚ) (m : CharacterFSM) (s : StateObj) (dt : ℚ)
    (input : BasicCharacterControllerInput)
    (h : m._currentState = some (.state s)) (hs : s.cls = .IdleState)
    (hf : input._keys.forward = true)
    (hbs : input._keys.backward = true ∨ input._keys.space = true) :
    (FiniteStateMachine.Update fl dt input m).returned = true ∧
    (FiniteStateMachine.Update fl dt input m).machine.activeName =
      some (if input._keys.space = true then "attack" else "walkback") := by
  have e : FiniteStateMachine.Update fl dt input m = IdleState.Update fl input m := by
    simp [FiniteStateMachine.Update, h, StateObj.Update, hs]
  rw [e]
  obtain ⟨m1, s1, a1, b1, c1⟩ := FiniteStateMachine.SetState_ok fl m s .WalkState h
  obtain ⟨m2, s2, a2, b2, c2⟩ := FiniteStateMachine.SetState_ok fl m1 s1 .WalkBackState b1
  obtain ⟨m3, s3, a3, b3, c3⟩ := FiniteStateMachine.SetState_ok fl m2 s2 .AttackState b2
  obtain ⟨m4, s4, a4, b4, c4⟩ := FiniteStateMachine.SetState_ok fl m1 s1 .AttackState b1
  simp only [StateClass.Name] at a1 a2 a3 a4
  cases hb : input._keys.backward <;> cases hsp : input._keys.space
  · simp [hb, hsp] at hbs
  · simp [IdleState.Update, hf, hb, hsp, a1, a4, Outcome.andThen, Outcome.returned,
      Outcome.machine, CharacterFSM.activeName_of m4 s4 b4, c4, StateClass.Name]
  · simp [IdleState.Update, hf, hb, hsp, a1, a2, Outcome.andThen, Outcome.returned,
      Outcome.machine, CharacterFSM.activeName_of m2 s2 b2, c2, StateClass.Name]
  · simp [IdleState.Update, hf, hb, hsp, a1, a2, a3, Outcome.andThen, Outcome.returned,
      Outcome.machine, CharacterFSM.activeName_of m3 s3 b3, c3, StateClass.Name]

/-- C1, amended, at a concrete input: idle machine, forward, backward and attack all held. -/
theorem idle_update_last_held_key_wins_witness :
    (FiniteStateMachine.Update Float64.round 0
        ⟨{ noKeys with forward := true, backward := true, space := true }⟩
        (idleMachine Float64.round)).returned = true ∧
    (FiniteStateMachine.Update Float64.round 0
        ⟨{ noKeys with forward := true, backward := true, space := true }⟩
        (idleMachine Float64.round)).machine.activeName =
      some (if (BasicCharacterControllerInput.mk
        { noKeys with forward := true, backward := true, space := true })._keys.space = true
        then "attack" else "walkback") :=
  idle_update_last_held_key_wins Float64.round (idleMachine Float64.round) ⟨0, .IdleState, none⟩ 0
    ⟨{ noKeys with forward := true, backward := true, space := true }⟩
    (by decide) rfl rfl (Or.inl rfl)

/-! ## C2 — Idempotent re-entry -/

/-- C2: when the active state has name `X`, `SetState(X)` returns normally with the machine
exactly as it was: the log has no new `Exit` or `Enter` entry, `_currentState` is the same
instance with the same `_finishedCallback`, and the animation actions and the listener
array are unchanged. -/
theorem SetState_active_name_is_noop (fl : ℚ → ℚ) (m : CharacterFSM) (X : String)
    (h : m.activeName = some X) :
    FiniteStateMachine.SetState fl X m = .ok m := by
  unfold CharacterFSM.activeName at h
  cases hc : m._currentState with
  | none => simp [hc] at h
  | some cur =>
      cases cur with
      | fsm => simp [hc] at h
      | state s =>
          simp [hc] at h
          subst h
          exact FiniteStateMachine.SetState_same fl m s hc

/-- C2 at a concrete input: an active Attack keeps its callback and its listener. -/
theorem SetState_active_name_is_noop_witness :
    (attackMachine Float64.round).activeName = some "attack" ∧
    FiniteStateMachine.SetState Float64.round "attack"
        (attackMachine Float64.round) = .ok (attackMachine Float64.round) :=
  ⟨by decide, SetState_active_name_is_noop Float64.round
      (attackMachine Float64.round) "attack" (by decide)⟩

/-! ## C3 — Unregistered names -/

/-- C3: for every machine and every name that is not registered, `SetState(name)` throws
(a `TypeError`); it never returns normally. -/
theorem SetState_unregistered_throws (fl : ℚ → ℚ) (m : CharacterFSM) (name : String)
    (h : name ∉ CharacterFSM.registeredNames) :
    (FiniteStateMachine.SetState fl name m).returned = false ∧
    ∃ m', FiniteStateMachine.SetState fl name m = .threw .TypeError m' := by
  have act : ∀ (p : Option StateObj) (k : CharacterFSM),
      ∃ m', FiniteStateMachine.activate fl name p k = .threw .TypeError m' := by
    intro p k
    rcases FiniteStateMachine.lookup_unregistered name h with hl | hl
    · exact ⟨k, by simp [FiniteStateMachine.activate, hl]⟩
    · exact ⟨{ k with _currentState := some .fsm }, by simp [FiniteStateMachine.activate, hl]⟩
  have main : ∃ m', FiniteStateMachine.SetState fl name m = .threw .TypeError m' := by
    cases hc : m._currentState with
    | none =>
        obtain ⟨m', hm'⟩ := act none m
        exact ⟨m', by simp [FiniteStateMachine.SetState, hc, hm']⟩
    | some cur =>
        cases cur with
        | fsm => exact ⟨m, by simp [FiniteStateMachine.SetState, hc]⟩
        | state s =>
            have hn : ¬ s.Name = name := by
              intro hh
              exact h ((CharacterFSM.mem_registeredNames name).2 ⟨s.cls, hh⟩)
            obtain ⟨m', hm'⟩ := act
              (some ((s.Exit (m.log (.Exit s.id))).deref s)) (s.Exit (m.log (.Exit s.id)))
            exact ⟨m', by simp [FiniteStateMachine.SetState, hc, hn, hm']⟩
  obtain ⟨m', hm'⟩ := main
  exact ⟨by simp [hm', Outcome.returned], m', hm'⟩

/-- C3 at a concrete input: `SetState("dance")` on the idle machine. -/
theorem SetState_unregistered_throws_witness :
    "dance" ∉ CharacterFSM.registeredNames ∧
    (FiniteStateMachine.SetState Float64.round "dance"
        (idleMachine Float64.round)).returned = false ∧
    ∃ m', FiniteStateMachine.SetState Float64.round "dance"
        (idleMachine Float64.round) = .threw .TypeError m' :=
  ⟨by decide, SetState_unregistered_throws Float64.round
      (idleMachine Float64.round) "dance" (by decide)⟩

/-! ## C4 — Transition choreography -/

theorem CharacterFSM.lookup_states_eq_some (name : String) (c : StateClass)
    (h : CharacterFSM._states.lookup name = some c) : name = c.Name := by
  by_cases hr : name ∈ CharacterFSM.registeredNames
  · obtain ⟨d, rfl⟩ := (CharacterFSM.mem_registeredNames name).1 hr
    have hd : CharacterFSM._states.lookup d.Name = some d := by cases d <;> decide
    rw [hd] at h
    cases h
    rfl
  · rcases FiniteStateMachine.lookup_unregistered name hr with hl | hl <;>
      simp [FiniteStateMachine.lookup, h] at hl

/-- C4: for a name registered with class `c` and different from the active state's name,
`SetState(name)` returns normally; the lifecycle log grows by, in this order, `Exit` of the
previous instance (when there is one), construction of an instance of `c`, its assignment
to `_currentState`, and its `Enter` with the previous instance (or none) as argument;
afterwards the constructed instance is the active one and its name is `name`. -/
theorem SetState_choreography (fl : ℚ → ℚ) (m : CharacterFSM) (name : String) (c : StateClass)
    (prev : Option StateObj)
    (hreg : CharacterFSM._states.lookup name = some c)
    (hcur : m._currentState = prev.map CurrentState.state)
    (hne : ∀ s, prev = some s → s.Name ≠ name) :
    (FiniteStateMachine.SetState fl name m).returned = true ∧
    lifecycle (FiniteStateMachine.SetState fl name m).machine.trace =
      lifecycle m.trace ++ (prev.map fun s => Event.Exit s.id).toList ++
        [.construct c m.nextId, .assign m.nextId, .Enter m.nextId (prev.map StateObj.id)] ∧
    (FiniteStateMachine.SetState fl name m).machine.activeId = some m.nextId ∧
    (FiniteStateMachine.SetState fl name m).machine.activeName = some name := by
  have hname := CharacterFSM.lookup_states_eq_some name c hreg
  subst hname
  cases prev with
  | none =>
      obtain ⟨m', st, a1, a2, a3, a4, a5, _⟩ :=
        FiniteStateMachine.SetState_from_none fl m c (by simpa using hcur)
      simp [a1, Outcome.returned, Outcome.machine, a5, CharacterFSM.activeId, a2, a4,
        CharacterFSM.activeName, StateObj.Name, a3]
  | some s =>
      have hc : s.cls ≠ c := by
        intro hh
        exact hne s rfl (by simp [StateObj.Name, hh])
      obtain ⟨m', st, a1, a2, a3, a4, a5, _⟩ :=
        FiniteStateMachine.SetState_from_state fl m s c (by simpa using hcur) hc
      simp [a1, Outcome.returned, Outcome.machine, a5, CharacterFSM.activeId, a2, a4,
        CharacterFSM.activeName, StateObj.Name, a3]

/-- C4 at a concrete input: `SetState("walk")` on the idle machine. -/
theorem SetState_choreography_witness :
    (FiniteStateMachine.SetState Float64.round "walk" (idleMachine Float64.round)).returned = true ∧
    lifecycle (FiniteStateMachine.SetState Float64.round "walk"
        (idleMachine Float64.round)).machine.trace =
      lifecycle (idleMachine Float64.round).trace ++
        ((some (StateObj.mk 0 .IdleState none)).map fun s => Event.Exit s.id).toList ++
        [.construct .WalkState (idleMachine Float64.round).nextId, .assign
            (idleMachine Float64.round).nextId,
          .Enter (idleMachine Float64.round).nextId ((some
              (StateObj.mk 0 .IdleState none)).map StateObj.id)] ∧
    (FiniteStateMachine.SetState Float64.round "walk"
        (idleMachine Float64.round)).machine.activeId =
      some (idleMachine Float64.round).nextId ∧
    (FiniteStateMachine.SetState Float64.round "walk"
        (idleMachine Float64.round)).machine.activeName = some "walk" :=
  SetState_choreography Float64.round
      (idleMachine Float64.round) "walk" .WalkState (some ⟨0, .IdleState, none⟩)
    (by decide) (by decide) (by intro s hs; cases hs; decide)

/-! ## C5, C6 — Gait tables -/

/-- C5: with Walk or Run active, one `Update` returns normally and the active state
afterwards is Run when forward and sprint are held, Walk when forward is held without
sprint, Idle when forward is not held; no other key is consulted. -/
theorem forward_gait_table (fl : ℚ → ℚ) (m : CharacterFSM) (s : StateObj) (dt : ℚ)
    (input : BasicCharacterControllerInput)
    (h : m._currentState = some (.state s))
    (hs : s.cls = .WalkState ∨ s.cls = .RunState) :
    (FiniteStateMachine.Update fl dt input m).returned = true ∧
    (FiniteStateMachine.Update fl dt input m).machine.activeName =
      some (if input._keys.forward = true then
        (if input._keys.shift = true then "run" else "walk") else "idle") := by
  obtain ⟨m1, s1, a1, b1, c1⟩ := FiniteStateMachine.SetState_ok fl m s .WalkState h
  obtain ⟨m2, s2, a2, b2, c2⟩ := FiniteStateMachine.SetState_ok fl m s .RunState h
  obtain ⟨m3, s3, a3, b3, c3⟩ := FiniteStateMachine.SetState_ok fl m s .IdleState h
  simp only [StateClass.Name] at a1 a2 a3
  have n0 := CharacterFSM.activeName_of m s h
  have n1 := CharacterFSM.activeName_of m1 s1 b1
  have n2 := CharacterFSM.activeName_of m2 s2 b2
  have n3 := CharacterFSM.activeName_of m3 s3 b3
  rw [c1] at n1
  rw [c2] at n2
  rw [c3] at n3
  rcases hs with hs | hs <;> rw [hs] at n0 <;>
    cases hf : input._keys.forward <;> cases hsh : input._keys.shift <;>
    simp [FiniteStateMachine.Update, h, StateObj.Update, hs, WalkState.Update, RunState.Update,
      hf, hsh, a1, a2, a3, n0, n1, n2, n3, Outcome.returned, Outcome.machine, StateClass.Name]

/-- C5 at a concrete input: Run active, forward held without sprint, gives Walk. -/
theorem forward_gait_table_witness :
    (FiniteStateMachine.Update Float64.round 0 ⟨{ noKeys with forward := true }⟩
      (FiniteStateMachine.SetState Float64.round "run"
          (idleMachine Float64.round)).machine).returned = true ∧
    (FiniteStateMachine.Update Float64.round 0 ⟨{ noKeys with forward := true }⟩
      (FiniteStateMachine.SetState Float64.round "run"
          (idleMachine Float64.round)).machine).machine.activeName =
      some (if (BasicCharacterControllerInput.mk { noKeys with forward := true })._keys.forward
          = true then
        (if (BasicCharacterControllerInput.mk { noKeys with forward := true })._keys.shift
          = true then "run" else "walk") else "idle") :=
  forward_gait_table Float64.round (FiniteStateMachine.SetState Float64.round "run"
      (idleMachine Float64.round)).machine
    ⟨1, .RunState, none⟩ 0 ⟨{ noKeys with forward := true }⟩ (by decide) (Or.inr rfl)

/-- C6: with WalkBackward or RunBackward active, one `Update` returns normally and the
active state afterwards is RunBackward when backward and sprint are held, WalkBackward when
backward is held without sprint, Idle when backward is not held; no other key is
consulted. -/
theorem backward_gait_table (fl : ℚ → ℚ) (m : CharacterFSM) (s : StateObj) (dt : ℚ)
    (input : BasicCharacterControllerInput)
    (h : m._currentState = some (.state s))
    (hs : s.cls = .WalkBackState ∨ s.cls = .RunBackwardsState) :
    (FiniteStateMachine.Update fl dt input m).returned = true ∧
    (FiniteStateMachine.Update fl dt input m).machine.activeName =
      some (if input._keys.backward = true then
        (if input._keys.shift = true then "runbackwards" else "walkback") else "idle") := by
  obtain ⟨m1, s1, a1, b1, c1⟩ := FiniteStateMachine.SetState_ok fl m s .WalkBackState h
  obtain ⟨m2, s2, a2, b2, c2⟩ := FiniteStateMachine.SetState_ok fl m s .RunBackwardsState h
  obtain ⟨m3, s3, a3, b3, c3⟩ := FiniteStateMachine.SetState_ok fl m s .IdleState h
  simp only [StateClass.Name] at a1 a2 a3
  have n0 := CharacterFSM.activeName_of m s h
  have n1 := CharacterFSM.activeName_of m1 s1 b1
  have n2 := CharacterFSM.activeName_of m2 s2 b2
  have n3 := CharacterFSM.activeName_of m3 s3 b3
  rw [c1] at n1
  rw [c2] at n2
  rw [c3] at n3
  rcases hs with hs | hs <;> rw [hs] at n0 <;>
    cases hf : input._keys.backward <;> cases hsh : input._keys.shift <;>
    simp [FiniteStateMachine.Update, h, StateObj.Update, hs, WalkBackState.Update,
      RunBackwardsState.Update, hf, hsh, a1, a2, a3, n0, n1, n2, n3, Outcome.returned,
      Outcome.machine, StateClass.Name]

/-- C6 at a concrete input: WalkBackward active, backward and sprint held, gives
RunBackward. -/
theorem backward_gait_table_witness :
    (FiniteStateMachine.Update Float64.round 0 ⟨{ noKeys with backward := true, shift := true }⟩
      (FiniteStateMachine.SetState Float64.round "walkback"
          (idleMachine Float64.round)).machine).returned = true ∧
    (FiniteStateMachine.Update Float64.round 0 ⟨{ noKeys with backward := true, shift := true }⟩
      (FiniteStateMachine.SetState Float64.round "walkback"
          (idleMachine Float64.round)).machine).machine.activeName =
      some (if (BasicCharacterControllerInput.mk
          { noKeys with backward := true, shift := true })._keys.backward = true then
        (if (BasicCharacterControllerInput.mk
          { noKeys with backward := true, shift := true })._keys.shift = true
          then "runbackwards" else "walkback") else "idle") :=
  backward_gait_table Float64.round (FiniteStateMachine.SetState Float64.round "walkback"
      (idleMachine Float64.round)).machine
    ⟨1, .WalkBackState, none⟩ 0 ⟨{ noKeys with backward := true, shift := true }⟩
    (by decide) (Or.inl rfl)

/-! ## C7 — Idle with a single key -/

/-- C7: with Idle active and whatever the left, right and sprint flags are (the six flags
of `Keys` are written in the order forward, backward, left, right, shift, space), one
`Update` returns normally and leaves Walk active when only forward is held, WalkBackward when only
backward is held, Attack when only attack is held; when none of the three is held it
returns the machine exactly as it was (same instance, no new log entry). -/
theorem idle_single_key_table (fl : ℚ → ℚ) (m : CharacterFSM) (s : StateObj) (dt : ℚ)
    (l r sh : Bool)
    (h : m._currentState = some (.state s)) (hs : s.cls = .IdleState) :
    ((FiniteStateMachine.Update fl dt ⟨⟨true, false, l, r, sh, false⟩⟩ m).returned = true ∧
      (FiniteStateMachine.Update fl dt ⟨⟨true, false, l, r, sh, false⟩⟩ m).machine.activeName =
        some "walk") ∧
    ((FiniteStateMachine.Update fl dt ⟨⟨false, true, l, r, sh, false⟩⟩ m).returned = true ∧
      (FiniteStateMachine.Update fl dt ⟨⟨false, true, l, r, sh, false⟩⟩ m).machine.activeName =
        some "walkback") ∧
    ((FiniteStateMachine.Update fl dt ⟨⟨false, false, l, r, sh, true⟩⟩ m).returned = true ∧
      (FiniteStateMachine.Update fl dt ⟨⟨false, false, l, r, sh, true⟩⟩ m).machine.activeName =
        some "attack") ∧
    FiniteStateMachine.Update fl dt ⟨⟨false, false, l, r, sh, false⟩⟩ m = .ok m := by
  obtain ⟨m1, s1, a1, b1, c1⟩ := FiniteStateMachine.SetState_ok fl m s .WalkState h
  obtain ⟨m2, s2, a2, b2, c2⟩ := FiniteStateMachine.SetState_ok fl m s .WalkBackState h
  obtain ⟨m3, s3, a3, b3, c3⟩ := FiniteStateMachine.SetState_ok fl m s .AttackState h
  simp only [StateClass.Name] at a1 a2 a3
  have n1 := CharacterFSM.activeName_of m1 s1 b1
  have n2 := CharacterFSM.activeName_of m2 s2 b2
  have n3 := CharacterFSM.activeName_of m3 s3 b3
  rw [c1] at n1
  rw [c2] at n2
  rw [c3] at n3
  simp [FiniteStateMachine.Update, h, StateObj.Update, hs, IdleState.Update, a1, a2, a3, n1,
    n2, n3, Outcome.andThen, Outcome.returned, Outcome.machine, StateClass.Name]

/-- C7 at a concrete input: the idle machine with left, right and sprint held. -/
theorem idle_single_key_table_witness :
    ((FiniteStateMachine.Update Float64.round 0 ⟨⟨true, false, true, true, true, false⟩⟩
        (idleMachine Float64.round)).returned = true ∧
      (FiniteStateMachine.Update Float64.round 0 ⟨⟨true, false, true, true, true, false⟩⟩
        (idleMachine Float64.round)).machine.activeName = some "walk") ∧
    ((FiniteStateMachine.Update Float64.round 0 ⟨⟨false, true, true, true, true, false⟩⟩
        (idleMachine Float64.round)).returned = true ∧
      (FiniteStateMachine.Update Float64.round 0 ⟨⟨false, true, true, true, true, false⟩⟩
        (idleMachine Float64.round)).machine.activeName = some "walkback") ∧
    ((FiniteStateMachine.Update Float64.round 0 ⟨⟨false, false, true, true, true, true⟩⟩
        (idleMachine Float64.round)).returned = true ∧
      (FiniteStateMachine.Update Float64.round 0 ⟨⟨false, false, true, true, true, true⟩⟩
        (idleMachine Float64.round)).machine.activeName = some "attack") ∧
    FiniteStateMachine.Update Float64.round 0
        ⟨⟨false, false, true, true, true, false⟩⟩ (idleMachine Float64.round) =
      .ok (idleMachine Float64.round) :=
  idle_single_key_table Float64.round
      (idleMachine Float64.round) ⟨0, .IdleState, none⟩ 0 true true true (by decide) rfl

/-! ## C8 — Attack exclusivity -/

/-- C8: with Attack active, `Update` with any input and any delta returns the machine
exactly as it was (same instance, no `SetState` effect); invoking a completion callback
(in particular the active instance's own) returns normally and leaves Idle active. -/
theorem attack_exclusive (fl : ℚ → ℚ) (m : CharacterFSM) (s : StateObj) (dt : ℚ)
    (input : BasicCharacterControllerInput) (cb : Callback)
    (h : m._currentState = some (.state s)) (hs : s.cls = .AttackState) :
    FiniteStateMachine.Update fl dt input m = .ok m ∧
    (cb.call fl m).returned = true ∧
    (cb.call fl m).machine.activeName = some "idle" := by
  obtain ⟨m1, s1, a1, b1, c1⟩ := FiniteStateMachine.SetState_ok fl m s .IdleState h
  simp only [StateClass.Name] at a1
  have n1 := CharacterFSM.activeName_of m1 s1 b1
  rw [c1] at n1
  simp [FiniteStateMachine.Update, h, StateObj.Update, hs, AttackState.Update, Callback.call,
    StateObj.Name, a1, n1, Outcome.returned, Outcome.machine, StateClass.Name]

/-- C8 at a concrete input: the attack machine, all keys held, its own callback. -/
theorem attack_exclusive_witness :
    FiniteStateMachine.Update Float64.round 1
        ⟨⟨true, true, true, true, true, true⟩⟩ (attackMachine Float64.round) =
      .ok (attackMachine Float64.round) ∧
    ((Callback.mk 2 1).call Float64.round (attackMachine Float64.round)).returned = true ∧
    ((Callback.mk 2 1).call Float64.round
        (attackMachine Float64.round)).machine.activeName = some "idle" :=
  attack_exclusive Float64.round (attackMachine Float64.round) ⟨1, .AttackState, some ⟨2, 1⟩⟩ 1
    ⟨⟨true, true, true, true, true, true⟩⟩ ⟨2, 1⟩ (by decide) rfl

/-! ## C9 — Stale completion callback -/

/-- C9, counterexample: the callback `⟨2, 1⟩` of the first Attack activation (instance 1) is
registered while that activation is active and unregistered once it is exited; invoked
while the second activation (instance 4) is active, it changes the machine: Idle becomes
the active state. -/
theorem stale_callback_forces_idle :
    (attackMachine Float64.round)._currentState = some (.state ⟨1, .AttackState, some ⟨2, 1⟩⟩) ∧
    (attackMachine Float64.round).listeners = [⟨2, 1⟩] ∧
    (secondAttackMachine Float64.round)._currentState =
        some (.state ⟨4, .AttackState, some ⟨5, 4⟩⟩) ∧
    (secondAttackMachine Float64.round).listeners = [⟨5, 4⟩] ∧
    ((Callback.mk 2 1).call Float64.round
        (secondAttackMachine Float64.round)).machine ≠ (secondAttackMachine Float64.round) ∧
    ((Callback.mk 2 1).call Float64.round
        (secondAttackMachine Float64.round)).machine.activeName = some "idle" := by
  decide

/-- C9, amended: invoking a completion callback (stale or not) while the active state is
not an Attack returns the machine exactly as it was; while an Attack activation is active,
whichever activation created the callback, it returns normally and leaves Idle active. -/
theorem stale_callback_guarded_by_name (fl : ℚ → ℚ) (m : CharacterFSM) (s : StateObj)
    (cb : Callback)
    (h : m._currentState = some (.state s)) :
    (if s.cls = .AttackState then
      (cb.call fl m).returned = true ∧ (cb.call fl m).machine.activeName = some "idle"
    else cb.call fl m = .ok m) := by
  by_cases hs : s.cls = .AttackState
  · obtain ⟨m1, s1, a1, b1, c1⟩ := FiniteStateMachine.SetState_ok fl m s .IdleState h
    simp only [StateClass.Name] at a1
    have n1 := CharacterFSM.activeName_of m1 s1 b1
    rw [c1] at n1
    simp [hs, Callback.call, h, StateObj.Name, a1, n1, Outcome.returned, Outcome.machine,
      StateClass.Name]
  · have hn : ¬ s.cls.Name = "attack" := by
      intro hh
      exact hs ((StateClass.Name_inj s.cls .AttackState).1 hh)
    simp [hs, Callback.call, h, StateObj.Name, hn]

/-- C9, amended, at a concrete input: the first activation's callback invoked after that
activation was superseded by Idle. -/
theorem stale_callback_guarded_by_name_witness :
    (if (StateObj.mk 3 .IdleState none).cls = .AttackState then
      ((Callback.mk 2 1).call Float64.round (FiniteStateMachine.SetState Float64.round "idle"
          (attackMachine Float64.round)).machine).returned
          = true ∧
        ((Callback.mk 2 1).call Float64.round
          (FiniteStateMachine.SetState Float64.round "idle"
              (attackMachine Float64.round)).machine).machine.activeName =
          some "idle"
    else (Callback.mk 2 1).call Float64.round (FiniteStateMachine.SetState Float64.round "idle"
        (attackMachine Float64.round)).machine =
      .ok (FiniteStateMachine.SetState Float64.round "idle"
          (attackMachine Float64.round)).machine) :=
  stale_callback_guarded_by_name Float64.round (FiniteStateMachine.SetState Float64.round "idle"
      (attackMachine Float64.round)).machine
    ⟨3, .IdleState, none⟩ ⟨2, 1⟩ (by decide)

/-! ## C10 — Listener pairing -/

theorem listenersAfterExit_of_pairing (m : CharacterFSM) (s : StateObj)
    (h : m._currentState = some (.state s)) (inv : ListenerPairing m) :
    listenersAfterExit s m.listeners = [] := by
  simp only [ListenerPairing, h] at inv
  obtain ⟨i1, i2⟩ := inv
  cases hcb : s._finishedCallback with
  | none =>
      rw [hcb] at i1
      cases hk : s.cls <;> simp [listenersAfterExit, hk, hcb, i1]
  | some cb =>
      rw [hcb] at i1 i2
      have hk : s.cls = .AttackState := i2.1 rfl
      simp [listenersAfterExit, hk, hcb, i1]

/-- `SetState` with a registered name returns normally and preserves the pairing. -/
theorem FiniteStateMachine.SetState_pairing (fl : ℚ → ℚ) (m : CharacterFSM) (c : StateClass)
    (inv : ListenerPairing m) :
    ∃ m', FiniteStateMachine.SetState fl c.Name m = .ok m' ∧ ListenerPairing m' := by
  have fin : ∀ (m' : CharacterFSM) (st : StateObj),
      m'._currentState = some (.state st) → st.cls = c →
      (c ≠ .AttackState → st._finishedCallback = none ∧ m'.listeners = []) →
      (c = .AttackState → ∃ cb, st._finishedCallback = some cb ∧ m'.listeners = [cb]) →
      ListenerPairing m' := by
    intro m' st a2 a3 a6 a7
    simp only [ListenerPairing, a2]
    by_cases hc : c = .AttackState
    · obtain ⟨cb, e1, e2⟩ := a7 hc
      simp [e1, e2, a3, hc]
    · obtain ⟨e1, e2⟩ := a6 hc
      simp [e1, e2, a3, hc]
  cases hcur : m._currentState with
  | none =>
      have hl : m.listeners = [] := by simpa [ListenerPairing, hcur] using inv
      obtain ⟨m', st, a1, a2, a3, _, _, a6, a7⟩ :=
        FiniteStateMachine.SetState_from_none fl m c hcur
      refine ⟨m', a1, fin m' st a2 a3 ?_ ?_⟩
      · intro hc
        simpa [hl] using a6 hc
      · intro hc
        simpa [hl] using a7 hc
  | some cur =>
      cases cur with
      | fsm => simp [ListenerPairing, hcur] at inv
      | state s =>
          by_cases hc : s.cls = c
          · refine ⟨m, ?_, inv⟩
            have := FiniteStateMachine.SetState_same fl m s hcur
            simpa [StateObj.Name, hc] using this
          · have hl := listenersAfterExit_of_pairing m s hcur inv
            obtain ⟨m', st, a1, a2, a3, _, _, a6, a7⟩ :=
              FiniteStateMachine.SetState_from_state fl m s c hcur hc
            refine ⟨m', a1, fin m' st a2 a3 ?_ ?_⟩
            · intro h
              simpa [hl] using a6 h
            · intro h
              simpa [hl] using a7 h

theorem FiniteStateMachine.Update_pairing (fl : ℚ → ℚ) (m : CharacterFSM) (dt : ℚ)
    (input : BasicCharacterControllerInput) (inv : ListenerPairing m) :
    ListenerPairing (FiniteStateMachine.Update fl dt input m).machine := by
  cases hcur : m._currentState with
  | none => simpa [FiniteStateMachine.Update, hcur, Outcome.machine] using inv
  | some cur =>
      cases cur with
      | fsm => simp [ListenerPairing, hcur] at inv
      | state s =>
          obtain ⟨w, hw, iw⟩ := FiniteStateMachine.SetState_pairing fl m .WalkState inv
          obtain ⟨r, hr, ir⟩ := FiniteStateMachine.SetState_pairing fl m .RunState inv
          obtain ⟨i, hi, ii⟩ := FiniteStateMachine.SetState_pairing fl m .IdleState inv
          obtain ⟨b, hb, ib⟩ := FiniteStateMachine.SetState_pairing fl m .WalkBackState inv
          obtain ⟨rb, hrb, irb⟩ := FiniteStateMachine.SetState_pairing fl m .RunBackwardsState inv
          obtain ⟨a, ha, ia⟩ := FiniteStateMachine.SetState_pairing fl m .AttackState inv
          obtain ⟨wb, hwb, iwb⟩ := FiniteStateMachine.SetState_pairing fl w .WalkBackState iw
          obtain ⟨wa, hwa, iwa⟩ := FiniteStateMachine.SetState_pairing fl w .AttackState iw
          obtain ⟨ba, hba, iba⟩ := FiniteStateMachine.SetState_pairing fl b .AttackState ib
          obtain ⟨wba, hwba, iwba⟩ := FiniteStateMachine.SetState_pairing fl wb .AttackState iwb
          simp only [StateClass.Name] at hw hr hi hb hrb ha hwb hwa hba hwba
          cases hk : s.cls <;>
            cases hf : input._keys.forward <;> cases hbk : input._keys.backward <;>
            cases hsh : input._keys.shift <;> cases hsp : input._keys.space <;>
            simp [FiniteStateMachine.Update, hcur, StateObj.Update, hk, IdleState.Update,
              WalkState.Update, RunState.Update, RunBackwardsState.Update,
              WalkBackState.Update, AttackState.Update, hf, hbk, hsh, hsp, hw, hr, hi, hb, hrb,
              ha, hwb, hwa, hba, hwba, Outcome.andThen, Outcome.machine] <;>
            assumption

theorem Callback.call_pairing (fl : ℚ → ℚ) (cb : Callback) (m : CharacterFSM)
    (inv : ListenerPairing m) :
    ListenerPairing (cb.call fl m).machine := by
  cases hcur : m._currentState with
  | none => simpa [Callback.call, hcur, Outcome.machine] using inv
  | some cur =>
      cases cur with
      | fsm => simp [ListenerPairing, hcur] at inv
      | state s =>
          obtain ⟨i, hi, ii⟩ := FiniteStateMachine.SetState_pairing fl m .IdleState inv
          simp only [StateClass.Name] at hi
          by_cases hn : s.Name = "attack"
          · simpa [Callback.call, hcur, hn, hi, Outcome.machine] using ii
          · simpa [Callback.call, hcur, hn, Outcome.machine] using inv

theorem dispatch_pairing (fl : ℚ → ℚ) (l : List Callback) (o : Outcome)
    (inv : ListenerPairing o.machine) :
    ListenerPairing (l.foldl (fun o cb => o.andThen (cb.call fl)) o).machine := by
  induction l generalizing o with
  | nil => simpa using inv
  | cons cb l ih =>
      simp only [List.foldl_cons]
      apply ih
      cases o with
      | ok m => simpa [Outcome.andThen] using Callback.call_pairing fl cb m inv
      | threw e m => simpa [Outcome.andThen, Outcome.machine] using inv

/-- Every reachable machine satisfies the pairing invariant. -/
theorem Reachable.pairing (fl : ℚ → ℚ) (animations : AnimationSet) (m : CharacterFSM)
    (h : Reachable fl animations m) : ListenerPairing m := by
  induction h with
  | start => simp [ListenerPairing, CharacterFSM.new]
  | setState m name _ hreg ih =>
      obtain ⟨c, rfl⟩ := (CharacterFSM.mem_registeredNames name).1 hreg
      obtain ⟨m', e, i⟩ := FiniteStateMachine.SetState_pairing fl m c ih
      simpa [e, Outcome.machine] using i
  | update m dt input _ ih => exact FiniteStateMachine.Update_pairing fl m dt input ih
  | finished m _ ih => exact dispatch_pairing fl m.listeners (.ok m) ih
  | notify m cb _ _ ih => exact Callback.call_pairing fl cb m ih
  | host m actions _ ih => simpa [ListenerPairing] using ih

/-- C10: in every machine reachable from the empty machine by `SetState` with registered
names, `Update` with arbitrary input and completion notifications delivered to registered
listeners, at most one completion listener is registered, one is registered exactly when
Attack is the active state, and the listener array holds exactly the callback stored in
the active instance.  The input-driven round trip Idle, Walk, Run, Walk, Idle passes
through these states and ends with Idle active and no registered listener. -/
theorem listener_pairing_invariant (fl : ℚ → ℚ) (animations : AnimationSet) (m : CharacterFSM)
    (h : Reachable fl animations m) :
    m.listeners.length ≤ 1 ∧
    (m.listeners.length = 1 ↔ m.activeName = some "attack") ∧
    m.listeners = m.activeCallback.toList ∧
    (roundTrip fl).map CharacterFSM.activeName =
      [some "idle", some "walk", some "run", some "walk", some "idle"] ∧
    (roundTrip fl).map CharacterFSM.listeners = [[], [], [], [], []] := by
  have inv := Reachable.pairing fl animations m h
  refine ⟨?_, ?_, ?_, rfl, rfl⟩
  all_goals
    cases hcur : m._currentState with
    | none =>
        have hl : m.listeners = [] := by simpa [ListenerPairing, hcur] using inv
        simp [hl, CharacterFSM.activeName, CharacterFSM.activeCallback, hcur]
    | some cur =>
        cases cur with
        | fsm => simp [ListenerPairing, hcur] at inv
        | state s =>
            simp only [ListenerPairing, hcur] at inv
            obtain ⟨i1, i2⟩ := inv
            have hn : s.cls.Name = "attack" ↔ s.cls = .AttackState :=
              StateClass.Name_inj s.cls .AttackState
            cases hcb : s._finishedCallback with
            | none =>
                rw [hcb] at i1 i2
                have hk : ¬ s.cls = .AttackState := fun hh => by simpa using i2.2 hh
                simp [i1, CharacterFSM.activeName, CharacterFSM.activeCallback, hcur, hcb,
                  StateObj.Name, hn, hk]
            | some cb =>
                rw [hcb] at i1 i2
                have hk : s.cls = .AttackState := i2.1 rfl
                simp [i1, CharacterFSM.activeName, CharacterFSM.activeCallback, hcur, hcb,
                  StateObj.Name, hk, StateClass.Name]

/-- C10 at a concrete input: the machine after `SetState("idle")`, `SetState("attack")`. -/
theorem listener_pairing_invariant_witness :
    Reachable Float64.round sampleAnimations (attackMachine Float64.round) ∧
    (attackMachine Float64.round).listeners.length ≤ 1 ∧
    ((attackMachine Float64.round).listeners.length = 1 ↔
        (attackMachine Float64.round).activeName = some "attack") ∧
    (attackMachine Float64.round).listeners = (attackMachine Float64.round).activeCallback.toList ∧
    (roundTrip Float64.round).map CharacterFSM.activeName =
      [some "idle", some "walk", some "run", some "walk", some "idle"] ∧
    (roundTrip Float64.round).map CharacterFSM.listeners = [[], [], [], [], []] :=
  ⟨Reachable.setState _ "attack"
      (Reachable.setState _ "idle" Reachable.start (by decide)) (by decide),
    listener_pairing_invariant Float64.round sampleAnimations (attackMachine Float64.round)
      (Reachable.setState _ "attack"
        (Reachable.setState _ "idle" Reachable.start (by decide)) (by decide))⟩

/-! ## C11, C12 — Entry protocol of the locomotion states -/

/-- C11: when a gait state is entered from its paired predecessor (Walk from Run, Run from
Walk, WalkBackward from RunBackward, RunBackward from WalkBackward) whose clip duration is
not zero, `Enter` enables the new action and sets its time to
`prevAction.time * (newClip.duration / prevClip.duration)`, the division and then the
multiplication each rounded by the arithmetic `fl` (in exact arithmetic this is the product
itself), leaving its time scale and weight as they were; it then only crossfades and plays
(the reset branch is not taken).  With walk `1.0` s, run `0.6` s and the walk action at
`0.4` s, entering Run through `Update` puts the run action at the binary64 number written
`0.24`, and at 6/25 in exact arithmetic; with walk `1.2` s, run `0.8` s and the run action
at `0.3` s, entering Walk puts the walk action at the binary64 number
`0.4499999999999999`. -/
theorem gait_continuity (fl : ℚ → ℚ) (self prev : StateObj) (m : CharacterFSM)
    (hp : pairedPredecessor self.cls = some prev.cls)
    (_hd : (m.clip prev.cls).duration ≠ 0) :
    (self.Enter fl (some prev) m).action self.cls =
      { m.action self.cls with
        enabled := true
        time := fl ((m.action prev.cls).time *
          fl ((m.clip self.cls).duration / (m.clip prev.cls).duration)) } ∧
    (self.Enter id (some prev) m).action self.cls =
      { m.action self.cls with
        enabled := true
        time := (m.action prev.cls).time *
          ((m.clip self.cls).duration / (m.clip prev.cls).duration) } ∧
    (self.Enter fl (some prev) m).trace =
      m.trace ++ [.crossFadeFrom self.cls prev.cls (1 / 2) true, .play self.cls] ∧
    ((FiniteStateMachine.Update Float64.round (1 / 60)
      ⟨{ noKeys with forward := true, shift := true }⟩
      (walkingMachine Float64.round)).machine.action .RunState).time = Float64.round (6 / 25) ∧
    ((FiniteStateMachine.Update id (1 / 60) ⟨{ noKeys with forward := true, shift := true }⟩
      (walkingMachine id)).machine.action .RunState).time = 6 / 25 ∧
    ((FiniteStateMachine.Update Float64.round (1 / 60) ⟨{ noKeys with forward := true }⟩
      (slowingMachine Float64.round)).machine.action .WalkState).time =
      8106479329266891 / 18014398509481984 := by
  refine ⟨?_, ?_, ?_, by decide!, by decide!, by decide!⟩
  all_goals
    cases hs : self.cls <;> cases hq : prev.cls <;> simp [hs, hq, pairedPredecessor] at hp <;>
      simp [StateObj.Enter, WalkState.Enter, RunState.Enter, RunBackwardsState.Enter,
        WalkBackState.Enter, gaitEnter, hs, hq, StateObj.Name, StateClass.Name,
        CharacterFSM.action, CharacterFSM.clip, CharacterFSM.modifyAction,
        CharacterFSM.crossFadeFrom, CharacterFSM.play, CharacterFSM.log,
        AnimationSet.get, AnimationSet.modifyAction]

/-- C11 at a concrete input: Run entered from Walk on the walking machine, in binary64
arithmetic. -/
theorem gait_continuity_witness :
    ((StateObj.mk 2 .RunState none).Enter Float64.round (some (StateObj.mk 1 .WalkState none))
        (walkingMachine Float64.round)).action (StateObj.mk 2 .RunState none).cls =
      { (walkingMachine Float64.round).action (StateObj.mk 2 .RunState none).cls with
        enabled := true
        time := Float64.round (((walkingMachine Float64.round).action
            (StateObj.mk 1 .WalkState none).cls).time *
          Float64.round (((walkingMachine Float64.round).clip
              (StateObj.mk 2 .RunState none).cls).duration / ((walkingMachine Float64.round).clip
              (StateObj.mk 1 .WalkState none).cls).duration)) } ∧
    ((StateObj.mk 2 .RunState none).Enter id (some (StateObj.mk 1 .WalkState none))
        (walkingMachine Float64.round)).action (StateObj.mk 2 .RunState none).cls =
      { (walkingMachine Float64.round).action (StateObj.mk 2 .RunState none).cls with
        enabled := true
        time := ((walkingMachine Float64.round).action (StateObj.mk 1 .WalkState none).cls).time *
          (((walkingMachine Float64.round).clip (StateObj.mk 2 .RunState none).cls).duration /
              ((walkingMachine Float64.round).clip
              (StateObj.mk 1 .WalkState none).cls).duration) } ∧
    ((StateObj.mk 2 .RunState none).Enter Float64.round (some (StateObj.mk 1 .WalkState none))
        (walkingMachine Float64.round)).trace =
      (walkingMachine Float64.round).trace ++ [.crossFadeFrom (StateObj.mk 2 .RunState none).cls
          (StateObj.mk 1 .WalkState none).cls (1 / 2) true, .play
          (StateObj.mk 2 .RunState none).cls] ∧
    ((FiniteStateMachine.Update Float64.round (1 / 60)
      ⟨{ noKeys with forward := true, shift := true }⟩
      (walkingMachine Float64.round)).machine.action .RunState).time = Float64.round (6 / 25) ∧
    ((FiniteStateMachine.Update id (1 / 60) ⟨{ noKeys with forward := true, shift := true }⟩
      (walkingMachine id)).machine.action .RunState).time = 6 / 25 ∧
    ((FiniteStateMachine.Update Float64.round (1 / 60) ⟨{ noKeys with forward := true }⟩
      (slowingMachine Float64.round)).machine.action .WalkState).time =
      8106479329266891 / 18014398509481984 :=
  gait_continuity Float64.round ⟨2, .RunState, none⟩ ⟨1, .WalkState, none⟩
    (walkingMachine Float64.round) rfl (by decide!)

/-- C12: when one of the five locomotion states is entered from a previous state that is
not its paired predecessor, `Enter` (a total function: it cannot throw) leaves the state's
own action enabled with time 0, time scale 1 and weight 1, and issues to the host, in
this order, `setEffectiveTimeScale(1)`, `setEffectiveWeight(1)`,
`crossFadeFrom(prevAction, 0.5, true)` and `play()`; entered with no previous state it
only issues `play()` and changes nothing else. -/
theorem non_paired_entry_reset (fl : ℚ → ℚ) (self prev : StateObj) (m : CharacterFSM)
    (hs : self.cls ≠ .AttackState)
    (hp : pairedPredecessor self.cls ≠ some prev.cls) :
    (self.Enter fl (some prev) m).action self.cls =
      { m.action self.cls with enabled := true, time := 0, timeScale := 1, weight := 1 } ∧
    (self.Enter fl (some prev) m).trace =
      m.trace ++ [.setEffectiveTimeScale self.cls 1, .setEffectiveWeight self.cls 1,
        .crossFadeFrom self.cls prev.cls (1 / 2) true, .play self.cls] ∧
    self.Enter fl none m = { m with trace := m.trace ++ [.play self.cls] } := by
  refine ⟨?_, ?_, ?_⟩
  all_goals
    cases hc : self.cls <;> cases hq : prev.cls <;>
      simp [hc, hq, pairedPredecessor] at hs hp <;>
      simp [StateObj.Enter, IdleState.Enter, WalkState.Enter, RunState.Enter,
        RunBackwardsState.Enter, WalkBackState.Enter, gaitEnter, hc, hq, StateObj.Name,
        StateClass.Name, CharacterFSM.action, CharacterFSM.clip, CharacterFSM.modifyAction,
        CharacterFSM.crossFadeFrom, CharacterFSM.play, CharacterFSM.log,
        CharacterFSM.setEffectiveTimeScale, CharacterFSM.setEffectiveWeight,
        AnimationSet.get, AnimationSet.modifyAction]

/-- C12 at a concrete input: Walk entered from Idle on the idle machine. -/
theorem non_paired_entry_reset_witness :
    ((StateObj.mk 1 .WalkState none).Enter Float64.round (some ⟨0, .IdleState, none⟩)
        (idleMachine Float64.round)).action
        (StateObj.mk 1 .WalkState none).cls =
      { (idleMachine Float64.round).action (StateObj.mk 1 .WalkState none).cls with
        enabled := true, time := 0, timeScale := 1, weight := 1 } ∧
    ((StateObj.mk 1 .WalkState none).Enter Float64.round (some ⟨0, .IdleState, none⟩)
        (idleMachine Float64.round)).trace =
      (idleMachine Float64.round).trace ++ [.setEffectiveTimeScale
          (StateObj.mk 1 .WalkState none).cls 1,
        .setEffectiveWeight (StateObj.mk 1 .WalkState none).cls 1,
        .crossFadeFrom (StateObj.mk 1 .WalkState none).cls
          (StateObj.mk 0 .IdleState none).cls (1 / 2) true,
        .play (StateObj.mk 1 .WalkState none).cls] ∧
    (StateObj.mk 1 .WalkState none).Enter Float64.round none (idleMachine Float64.round) =
      { (idleMachine Float64.round) with
        trace := (idleMachine Float64.round).trace ++ [.play
            (StateObj.mk 1 .WalkState none).cls] } :=
  non_paired_entry_reset Float64.round ⟨1, .WalkState, none⟩ ⟨0, .IdleState, none⟩
      (idleMachine Float64.round)
    (by decide) (by decide)

/-! ## C17 — Readiness guard -/

/-- C17: while the model is not loaded (`_target` unset), `Update` returns normally with the
controller exactly as it was, for every delta, every input held in `_input` and whatever
the host would do: the state machine (its active state and its log), the mixer clock, the
velocity and the transform are unchanged. -/
theorem update_before_load_is_noop (fl : ℚ → ℚ) (timeInSeconds : ℚ) (host : MixerFrame)
    (c : BasicCharacterController) (h : c._target = none) :
    BasicCharacterController.Update fl timeInSeconds host c = .ok c := by
  simp [BasicCharacterController.Update, h]

/-- C17 at a concrete input: the freshly constructed controller with every key held. -/
theorem update_before_load_is_noop_witness :
    BasicCharacterController.Update id 1 quietHost
        { BasicCharacterController.new id sampleAnimations with
          _input := ⟨⟨true, true, true, true, true, true⟩⟩ } =
      .ok { BasicCharacterController.new id sampleAnimations with
          _input := ⟨⟨true, true, true, true, true, true⟩⟩ } :=
  update_before_load_is_noop id 1 quietHost
    { BasicCharacterController.new id sampleAnimations with
      _input := ⟨⟨true, true, true, true, true, true⟩⟩ } rfl

/-! ## C18 — Input flags -/

/-- C18: a key code outside 87, 83, 65, 68, 16, 32 leaves the input unchanged on key-down
and on key-up; for each recognised code key-down sets exactly the mapped flag (87 forward,
83 backward, 65 left, 68 right, 16 shift, 32 space) to true and key-up sets exactly it to
false, so key-down followed by key-up of the same key leaves the input with that flag
false and the other five as they were. -/
theorem key_handlers_flags (keyCode : Int) (i : BasicCharacterControllerInput)
    (h : keyCode ∉ [87, 83, 65, 68, 16, 32]) :
    (i._onKeyDown keyCode = i ∧ i._onKeyUp keyCode = i) ∧
    (i._onKeyDown 87 = ⟨{ i._keys with forward := true }⟩ ∧
      i._onKeyDown 83 = ⟨{ i._keys with backward := true }⟩ ∧
      i._onKeyDown 65 = ⟨{ i._keys with left := true }⟩ ∧
      i._onKeyDown 68 = ⟨{ i._keys with right := true }⟩ ∧
      i._onKeyDown 16 = ⟨{ i._keys with shift := true }⟩ ∧
      i._onKeyDown 32 = ⟨{ i._keys with space := true }⟩) ∧
    (i._onKeyUp 87 = ⟨{ i._keys with forward := false }⟩ ∧
      i._onKeyUp 83 = ⟨{ i._keys with backward := false }⟩ ∧
      i._onKeyUp 65 = ⟨{ i._keys with left := false }⟩ ∧
      i._onKeyUp 68 = ⟨{ i._keys with right := false }⟩ ∧
      i._onKeyUp 16 = ⟨{ i._keys with shift := false }⟩ ∧
      i._onKeyUp 32 = ⟨{ i._keys with space := false }⟩) ∧
    ((i._onKeyDown 87)._onKeyUp 87 = ⟨{ i._keys with forward := false }⟩ ∧
      (i._onKeyDown 83)._onKeyUp 83 = ⟨{ i._keys with backward := false }⟩ ∧
      (i._onKeyDown 65)._onKeyUp 65 = ⟨{ i._keys with left := false }⟩ ∧
      (i._onKeyDown 68)._onKeyUp 68 = ⟨{ i._keys with right := false }⟩ ∧
      (i._onKeyDown 16)._onKeyUp 16 = ⟨{ i._keys with shift := false }⟩ ∧
      (i._onKeyDown 32)._onKeyUp 32 = ⟨{ i._keys with space := false }⟩) := by
  simp only [List.mem_cons, List.mem_singleton, List.not_mem_nil, or_false, not_or] at h
  obtain ⟨h1, h2, h3, h4, h5, h6⟩ := h
  refine ⟨⟨?_, ?_⟩, ?_, ?_, ?_⟩
  · simp [BasicCharacterControllerInput._onKeyDown, h1, h2, h3, h4, h5, h6]
  · simp [BasicCharacterControllerInput._onKeyUp, h1, h2, h3, h4, h5, h6]
  · cases i with
    | mk k =>
      cases k with
      | mk f b l r sh sp => cases sp <;> simp [BasicCharacterControllerInput._onKeyDown]
  · simp [BasicCharacterControllerInput._onKeyUp]
  · cases hsp : i._keys.space <;>
      simp [BasicCharacterControllerInput._onKeyDown, BasicCharacterControllerInput._onKeyUp,
        hsp]

/-- C18 at a concrete input: key code 13 (Enter) with forward and shift held. -/
theorem key_handlers_flags_witness :
    (sampleInput._onKeyDown 13 = sampleInput ∧ sampleInput._onKeyUp 13 = sampleInput) ∧
    (sampleInput._onKeyDown 87 = ⟨{ sampleInput._keys with forward := true }⟩ ∧
      sampleInput._onKeyDown 83 = ⟨{ sampleInput._keys with backward := true }⟩ ∧
      sampleInput._onKeyDown 65 = ⟨{ sampleInput._keys with left := true }⟩ ∧
      sampleInput._onKeyDown 68 = ⟨{ sampleInput._keys with right := true }⟩ ∧
      sampleInput._onKeyDown 16 = ⟨{ sampleInput._keys with shift := true }⟩ ∧
      sampleInput._onKeyDown 32 = ⟨{ sampleInput._keys with space := true }⟩) ∧
    (sampleInput._onKeyUp 87 = ⟨{ sampleInput._keys with forward := false }⟩ ∧
      sampleInput._onKeyUp 83 = ⟨{ sampleInput._keys with backward := false }⟩ ∧
      sampleInput._onKeyUp 65 = ⟨{ sampleInput._keys with left := false }⟩ ∧
      sampleInput._onKeyUp 68 = ⟨{ sampleInput._keys with right := false }⟩ ∧
      sampleInput._onKeyUp 16 = ⟨{ sampleInput._keys with shift := false }⟩ ∧
      sampleInput._onKeyUp 32 = ⟨{ sampleInput._keys with space := false }⟩) ∧
    ((sampleInput._onKeyDown 87)._onKeyUp 87 = ⟨{ sampleInput._keys with forward := false }⟩ ∧
      (sampleInput._onKeyDown 83)._onKeyUp 83 = ⟨{ sampleInput._keys with backward := false }⟩ ∧
      (sampleInput._onKeyDown 65)._onKeyUp 65 = ⟨{ sampleInput._keys with left := false }⟩ ∧
      (sampleInput._onKeyDown 68)._onKeyUp 68 = ⟨{ sampleInput._keys with right := false }⟩ ∧
      (sampleInput._onKeyDown 16)._onKeyUp 16 = ⟨{ sampleInput._keys with shift := false }⟩ ∧
      (sampleInput._onKeyDown 32)._onKeyUp 32 = ⟨{ sampleInput._keys with space := false }⟩) :=
  key_handlers_flags 13 sampleInput (by decide)

/-! ## C19 — Failed `SetState` -/

/-- C19, counterexample: `"constructor"` is not a registered name, yet `SetState("constructor")`
with Attack active does not leave Attack active: `new Object(this)` evaluates to the state
machine itself, which is assigned to `_currentState` before `state.Enter` throws. -/
theorem failed_SetState_constructor_replaces_state :
    "constructor" ∉ CharacterFSM.registeredNames ∧
    (attackMachine Float64.round).activeName = some "attack" ∧
    (FiniteStateMachine.SetState Float64.round "constructor"
        (attackMachine Float64.round)).returned = false ∧
    (FiniteStateMachine.SetState Float64.round "constructor"
        (attackMachine Float64.round)).machine._currentState =
      some .fsm ∧
    (FiniteStateMachine.SetState Float64.round "constructor"
        (attackMachine Float64.round)).machine._currentState ≠
      (attackMachine Float64.round)._currentState ∧
    (FiniteStateMachine.SetState Float64.round "constructor"
        (attackMachine Float64.round)).machine.activeName = none := by
  decide

theorem runEvents_stuck (fl : ℚ → ℚ) (m : CharacterFSM) (s : StateObj)
    (h : m._currentState = some (.state s)) (hs : s.cls = .AttackState)
    (hl : m.listeners = []) (es : List MachineEvent) : runEvents fl es m = m := by
  induction es with
  | nil => rfl
  | cons e es ih =>
      have he : e.apply fl m = m := by
        cases e with
        | update timeElapsed input =>
            simp [MachineEvent.apply, FiniteStateMachine.Update, h, StateObj.Update, hs,
              AttackState.Update, Outcome.machine]
        | finished => simp [MachineEvent.apply, dispatchFinished, hl, Outcome.machine]
      simpa [runEvents, he] using ih

/-- C19, amended: when `SetState` is called with an unregistered name other than
`"constructor"` while a state instance is active (in a machine that satisfies the listener
pairing of C10), the call throws after `Exit` of that instance has run: the lifecycle log
has the `Exit` entry and nothing after it, the same instance is still the active one, its
`_finishedCallback` is `null` and no listener is registered.  If the instance is an
`AttackState`, every later sequence of frame updates and completion notifications leaves
the machine as it is: Attack stays active and Idle is not entered. -/
theorem failed_SetState_exits_first (fl : ℚ → ℚ) (m : CharacterFSM) (s : StateObj) (name : String)
    (es : List MachineEvent)
    (h : m._currentState = some (.state s)) (inv : ListenerPairing m)
    (hname : name ∉ CharacterFSM.registeredNames) (hc : name ≠ "constructor") :
    (FiniteStateMachine.SetState fl name m).returned = false ∧
    lifecycle (FiniteStateMachine.SetState fl name m).machine.trace =
      lifecycle m.trace ++ [.Exit s.id] ∧
    (FiniteStateMachine.SetState fl name m).machine._currentState =
      some (.state { s with _finishedCallback := none }) ∧
    (FiniteStateMachine.SetState fl name m).machine.listeners = [] ∧
    (s.cls = .AttackState →
      runEvents fl es (FiniteStateMachine.SetState fl name m).machine =
        (FiniteStateMachine.SetState fl name m).machine) := by
  have hn : ¬ s.Name = name := by
    intro hh
    exact hname ((CharacterFSM.mem_registeredNames name).2 ⟨s.cls, hh⟩)
  have hl : FiniteStateMachine.lookup name = none := by
    rcases FiniteStateMachine.lookup_unregistered name hname with hl | hl
    · exact hl
    · unfold FiniteStateMachine.lookup at hl
      cases hk : CharacterFSM._states.lookup name <;> simp [hk, hc] at hl
  have e : FiniteStateMachine.SetState fl name m =
      .threw .TypeError (s.Exit (m.log (.Exit s.id))) := by
    simp [FiniteStateMachine.SetState, h, hn, FiniteStateMachine.activate, hl]
  have hex := StateObj.Exit_spec s m h
  simp only at hex
  obtain ⟨_, k5, _, k7⟩ := hex
  have hle := listenersAfterExit_of_pairing m s h inv
  have hcur : (s.Exit (m.log (.Exit s.id)))._currentState =
      some (.state { s with _finishedCallback := none }) := by
    by_cases hk : s.cls = .AttackState
    · have key := AttackState.Exit_active s (m.log (.Exit s.id)) h
      simp only at key
      simpa [StateObj.Exit, hk] using key.1
    · simp only [ListenerPairing, h] at inv
      have hnone : s._finishedCallback = none := by
        cases hcb : s._finishedCallback with
        | none => rfl
        | some cb =>
            have := inv.2.1 (by simp [hcb])
            exact absurd this hk
      have hs' : ({ s with _finishedCallback := none } : StateObj) = s := by
        cases s; simp_all
      rw [StateObj.Exit_of_ne_attack s hk, hs']
      simpa [CharacterFSM.log] using h
  rw [e]
  refine ⟨rfl, k7, hcur, by rw [← hle]; exact k5, ?_⟩
  intro hk
  exact runEvents_stuck fl _ _ hcur hk (by rw [← hle]; exact k5) es

/-- C19, amended, at a concrete input: `SetState("dance")` with Attack active, followed by
a completion notification and a frame with every key held. -/
theorem failed_SetState_exits_first_witness :
    (FiniteStateMachine.SetState Float64.round "dance"
        (attackMachine Float64.round)).returned = false ∧
    lifecycle (FiniteStateMachine.SetState Float64.round "dance"
        (attackMachine Float64.round)).machine.trace =
      lifecycle (attackMachine Float64.round).trace ++ [.Exit (StateObj.mk 1 .AttackState (some
          ⟨2, 1⟩)).id] ∧
    (FiniteStateMachine.SetState Float64.round "dance"
        (attackMachine Float64.round)).machine._currentState =
      some (.state { StateObj.mk 1 .AttackState (some ⟨2, 1⟩) with
        _finishedCallback := none }) ∧
    (FiniteStateMachine.SetState Float64.round "dance"
        (attackMachine Float64.round)).machine.listeners = [] ∧
    ((StateObj.mk 1 .AttackState (some ⟨2, 1⟩)).cls = .AttackState →
      runEvents Float64.round [.finished, .update 1 ⟨⟨true, true, true, true, true, true⟩⟩]
          (FiniteStateMachine.SetState Float64.round "dance"
              (attackMachine Float64.round)).machine =
        (FiniteStateMachine.SetState Float64.round "dance"
            (attackMachine Float64.round)).machine) :=
  failed_SetState_exits_first Float64.round
      (attackMachine Float64.round) ⟨1, .AttackState, some ⟨2, 1⟩⟩ "dance"
    [.finished, .update 1 ⟨⟨true, true, true, true, true, true⟩⟩]
    (by decide)
    (Reachable.pairing Float64.round sampleAnimations (attackMachine Float64.round)
      (Reachable.setState _ "attack"
        (Reachable.setState _ "idle" Reachable.start (by decide)) (by decide)))
    (by decide) (by decide)

/-! ## The controller's frame -/

/-- With the model loaded and the state machine's `Update` returning, the controller's
`Update` leaves the tuning vectors and the input alone, stores the frame velocity, appends
this frame's rotations to the orientation and its two displacements to the position. -/
theorem BasicCharacterController.Update_loaded (fl : ℚ → ℚ) (timeInSeconds : ℚ)
    (host : MixerFrame) (c : BasicCharacterController) (obj : Object3D)
    (ht : c._target = some obj)
    (hm : (FiniteStateMachine.Update fl timeInSeconds c._input c._stateMachine).returned = true) :
    (BasicCharacterController.Update fl timeInSeconds host c).controller._velocity =
      BasicCharacterController.frameVelocity fl timeInSeconds c ∧
    (BasicCharacterController.Update fl timeInSeconds host c).controller._target =
      some { quaternion := obj.quaternion ++ BasicCharacterController.turns fl timeInSeconds c
             position := obj.position ++
              [⟨obj.quaternion ++ BasicCharacterController.turns fl timeInSeconds c, .forward,
                  fl ((BasicCharacterController.frameVelocity fl timeInSeconds c).z *
                    timeInSeconds)⟩,
                ⟨obj.quaternion ++ BasicCharacterController.turns fl timeInSeconds c, .sideways,
                  fl ((BasicCharacterController.frameVelocity fl timeInSeconds c).x *
                    timeInSeconds)⟩] } ∧
    (BasicCharacterController.Update fl timeInSeconds host c).controller._acceleration =
      c._acceleration ∧
    (BasicCharacterController.Update fl timeInSeconds host c).controller._deceleration =
      c._deceleration ∧
    (BasicCharacterController.Update fl timeInSeconds host c).controller._input = c._input := by
  cases hu : FiniteStateMachine.Update fl timeInSeconds c._input c._stateMachine with
  | threw e m => simp [hu, Outcome.returned] at hm
  | ok m =>
      cases hmx : c._mixer with
      | none =>
          simp [BasicCharacterController.Update, ht, hu, hmx,
            ControllerOutcome.controller, BasicCharacterController.frameVelocity,
            BasicCharacterController.decelerated, BasicCharacterController.effectiveAcceleration,
            BasicCharacterController.turns]
      | some mixer =>
          cases hf : host.finished with
          | false =>
              simp [BasicCharacterController.Update, ht, hu, hmx, hf,
                ControllerOutcome.controller, BasicCharacterController.frameVelocity,
                BasicCharacterController.decelerated,
                BasicCharacterController.effectiveAcceleration, BasicCharacterController.turns]
          | true =>
              cases hd : dispatchFinished fl
                  { m with _proxy := host.actions m._proxy } <;>
                simp [BasicCharacterController.Update, ht, hu, hmx, hf, hd,
                  ControllerOutcome.controller, BasicCharacterController.frameVelocity,
                  BasicCharacterController.decelerated,
                  BasicCharacterController.effectiveAcceleration,
                  BasicCharacterController.turns]

/-- Exact arithmetic is a rounding. -/
theorem Rounding.exact : Rounding id :=
  ⟨rfl, fun _ => rfl, fun _ _ h => h, fun _ => rfl⟩

theorem Rounding.nonneg {fl : ℚ → ℚ} (R : Rounding fl) {x : ℚ} (h : 0 ≤ x) : 0 ≤ fl x := by
  have := R.mono 0 x h
  rwa [R.zero] at this

theorem Rounding.nonpos {fl : ℚ → ℚ} (R : Rounding fl) {x : ℚ} (h : x ≤ 0) : fl x ≤ 0 := by
  have := R.mono x 0 h
  rwa [R.zero] at this

theorem Rounding.abs_fixed {fl : ℚ → ℚ} (R : Rounding fl) {x : ℚ} (h : fl x = x) :
    fl |x| = |x| := by
  rcases abs_choice x with hx | hx
  · rw [hx, h]
  · rw [hx, R.neg, h]

theorem Rounding.min_fixed {fl : ℚ → ℚ} {x y : ℚ} (hx : fl x = x) (hy : fl y = y) :
    fl (min x y) = min x y := by
  rcases min_choice x y with h | h
  · rw [h, hx]
  · rw [h, hy]

/-- The raw frame deceleration along the forward axis, before the clamp, is the negated
rounded product `v * 5 * dt`. -/
theorem Rounding.raw_deceleration {fl : ℚ → ℚ} (R : Rounding fl) (v dt : ℚ) :
    fl (fl (v * -5) * dt) = -fl (fl (v * 5) * dt) := by
  have h1 : v * -5 = -(v * 5) := by ring
  rw [h1, R.neg, neg_mul, R.neg]

/-- The clamped forward decrement for a rounding function obeying the laws. -/
theorem BasicCharacterController.frameDeceleration_z (fl : ℚ → ℚ) (R : Rounding fl)
    (velocity deceleration : THREE.Vector3) (dt : ℚ)
    (hd : deceleration.z = -5) (hv : fl velocity.z = velocity.z) (hdt : 0 ≤ dt) :
    (BasicCharacterController.frameDeceleration fl velocity deceleration dt).z =
      -(Math.sign velocity.z) *
        Math.min (Math.abs (fl (fl (velocity.z * 5) * dt))) (Math.abs velocity.z) := by
  have hraw := R.raw_deceleration velocity.z dt
  simp only [BasicCharacterController.frameDeceleration, THREE.Vector3.multiplyScalar, hd,
    hraw, Math.abs, Math.min, abs_neg]
  generalize hw : fl (fl (velocity.z * 5) * dt) = w
  have hfw : fl w = w := by rw [← hw, R.idem]
  have hM : fl (min |w| |velocity.z|) = min |w| |velocity.z| :=
    Rounding.min_fixed (R.abs_fixed hfw) (R.abs_fixed hv)
  have hwpos : 0 ≤ velocity.z → 0 ≤ w := by
    intro h
    rw [← hw]
    exact R.nonneg (mul_nonneg (R.nonneg (by positivity)) hdt)
  have hwneg : velocity.z ≤ 0 → w ≤ 0 := by
    intro h
    rw [← hw]
    exact R.nonpos (mul_nonpos_of_nonpos_of_nonneg
      (R.nonpos (mul_nonpos_of_nonpos_of_nonneg h (by norm_num))) hdt)
  rcases lt_trichotomy velocity.z 0 with hneg | hzero | hpos
  · have hw0 := hwneg hneg.le
    rcases hw0.lt_or_eq with hlt | heq
    · have s1 : Math.sign (-w) = 1 := by simp [Math.sign, hlt]
      have s2 : Math.sign velocity.z = -1 := by simp [Math.sign, hneg, not_lt.2 hneg.le]
      rw [s1, s2, one_mul, hM]
      ring
    · have s1 : Math.sign (-w) = 0 := by simp [Math.sign, heq]
      rw [s1, zero_mul, R.zero, heq, abs_zero, min_eq_left (abs_nonneg _)]
      ring
  · have hw0 : w = 0 := le_antisymm (hwneg hzero.le) (hwpos hzero.ge)
    have s1 : Math.sign (-w) = 0 := by simp [Math.sign, hw0]
    rw [s1, zero_mul, R.zero, hw0, abs_zero, min_eq_left (abs_nonneg _)]
    ring
  · have hw0 := hwpos hpos.le
    rcases hw0.lt_or_eq with hlt | heq
    · have s1 : Math.sign (-w) = -1 := by simp [Math.sign, hlt, not_lt.2 hlt.le]
      have s2 : Math.sign velocity.z = 1 := by simp [Math.sign, hpos]
      rw [s1, s2, neg_one_mul, R.neg, hM]
    · have s1 : Math.sign (-w) = 0 := by simp [Math.sign, ← heq]
      rw [s1, zero_mul, R.zero, ← heq, abs_zero, min_eq_left (abs_nonneg _)]
      ring

theorem Rounding.max_fixed {fl : ℚ → ℚ} {x y : ℚ} (hx : fl x = x) (hy : fl y = y) :
    fl (max x y) = max x y := by
  rcases max_choice x y with h | h
  · rw [h, hx]
  · rw [h, hy]

/-! ## C13 — Deceleration clamp -/

/-- C13: with forward deceleration rate -5, a forward velocity `v` that is a number of the
arithmetic, `dt ≥ 0` and any rounding obeying the laws (exact arithmetic among them), the
forward decrement of one `Update` is `-sign(v) * min(|v * 5 * dt|, |v|)`; it is what the
deceleration step adds to `v`, and the forward velocity after that step lies between 0 and
`v` inclusive, so it never changes sign.  For `v = 2` and `dt = 1` the decrement is -2, in
exact and in binary64 arithmetic. -/
theorem deceleration_clamp (fl : ℚ → ℚ) (R : Rounding fl) (dt : ℚ)
    (c : BasicCharacterController)
    (hd : c._deceleration.z = -5) (hv : fl c._velocity.z = c._velocity.z) (hdt : 0 ≤ dt) :
    (BasicCharacterController.frameDeceleration fl c._velocity c._deceleration dt).z =
      -(Math.sign c._velocity.z) *
        Math.min (Math.abs (fl (fl (c._velocity.z * 5) * dt))) (Math.abs c._velocity.z) ∧
    (BasicCharacterController.decelerated fl dt c).z =
      fl (c._velocity.z +
        (BasicCharacterController.frameDeceleration fl c._velocity c._deceleration dt).z) ∧
    min 0 c._velocity.z ≤ (BasicCharacterController.decelerated fl dt c).z ∧
    (BasicCharacterController.decelerated fl dt c).z ≤ max 0 c._velocity.z ∧
    (BasicCharacterController.frameDeceleration id (movingController id 2)._velocity
      (movingController id 2)._deceleration 1).z = -2 ∧
    (BasicCharacterController.frameDeceleration Float64.round
      (movingController Float64.round 2)._velocity
      (movingController Float64.round 2)._deceleration 1).z = -2 := by
  have hz := BasicCharacterController.frameDeceleration_z fl R c._velocity c._deceleration dt
    hd hv hdt
  have hdec : (BasicCharacterController.decelerated fl dt c).z =
      fl (c._velocity.z +
        (BasicCharacterController.frameDeceleration fl c._velocity c._deceleration dt).z) := by
    simp [BasicCharacterController.decelerated, THREE.Vector3.add]
  have hM0 : 0 ≤ Math.min (Math.abs (fl (fl (c._velocity.z * 5) * dt)))
      (Math.abs c._velocity.z) := by
    simp only [Math.min, Math.abs]
    exact le_min (abs_nonneg _) (abs_nonneg _)
  have hMv : Math.min (Math.abs (fl (fl (c._velocity.z * 5) * dt)))
      (Math.abs c._velocity.z) ≤ |c._velocity.z| := by
    simp only [Math.min, Math.abs]
    exact min_le_right _ _
  have exact : min 0 c._velocity.z ≤ c._velocity.z +
        (BasicCharacterController.frameDeceleration fl c._velocity c._deceleration dt).z ∧
      c._velocity.z +
        (BasicCharacterController.frameDeceleration fl c._velocity c._deceleration dt).z ≤
        max 0 c._velocity.z := by
    rw [hz]
    generalize Math.min (Math.abs (fl (fl (c._velocity.z * 5) * dt)))
      (Math.abs c._velocity.z) = M at hM0 hMv
    rcases lt_trichotomy c._velocity.z 0 with hneg | hzero | hpos
    · have s2 : Math.sign c._velocity.z = -1 := by simp [Math.sign, hneg, not_lt.2 hneg.le]
      rw [s2, min_eq_right hneg.le, max_eq_left hneg.le]
      rw [abs_of_neg hneg] at hMv
      constructor <;> linarith
    · have s2 : Math.sign c._velocity.z = 0 := by simp [Math.sign, hzero]
      rw [s2, hzero]
      simp
    · have s2 : Math.sign c._velocity.z = 1 := by simp [Math.sign, hpos]
      rw [s2, min_eq_left hpos.le, max_eq_right hpos.le]
      rw [abs_of_pos hpos] at hMv
      constructor <;> linarith
  refine ⟨hz, hdec, ?_, ?_, by decide!, by decide!⟩
  · rw [hdec, ← Rounding.min_fixed R.zero hv]
    exact R.mono _ _ exact.1
  · rw [hdec, ← Rounding.max_fixed R.zero hv]
    exact R.mono _ _ exact.2

/-- C13 at a concrete input: exact arithmetic, `v = 2`, `dt = 1`. -/
theorem deceleration_clamp_witness :
    (BasicCharacterController.frameDeceleration id (movingController id 2)._velocity
        (movingController id 2)._deceleration 1).z =
      -(Math.sign (movingController id 2)._velocity.z) *
        Math.min (Math.abs (id (id ((movingController id 2)._velocity.z * 5) * 1)))
          (Math.abs (movingController id 2)._velocity.z) ∧
    (BasicCharacterController.decelerated id 1 (movingController id 2)).z =
      id ((movingController id 2)._velocity.z +
        (BasicCharacterController.frameDeceleration id (movingController id 2)._velocity
          (movingController id 2)._deceleration 1).z) ∧
    min 0 (movingController id 2)._velocity.z ≤
      (BasicCharacterController.decelerated id 1 (movingController id 2)).z ∧
    (BasicCharacterController.decelerated id 1 (movingController id 2)).z ≤
      max 0 (movingController id 2)._velocity.z ∧
    (BasicCharacterController.frameDeceleration id (movingController id 2)._velocity
      (movingController id 2)._deceleration 1).z = -2 ∧
    (BasicCharacterController.frameDeceleration Float64.round
      (movingController Float64.round 2)._velocity
      (movingController Float64.round 2)._deceleration 1).z = -2 :=
  deceleration_clamp id Rounding.exact 1 (movingController id 2) rfl rfl (by norm_num)

/-- Unless `_currentState` is the machine itself, the state machine's `Update` returns
normally, whatever the input. -/
theorem FiniteStateMachine.Update_returns (fl : ℚ → ℚ) (m : CharacterFSM) (dt : ℚ)
    (input : BasicCharacterControllerInput) (h : m._currentState ≠ some .fsm) :
    (FiniteStateMachine.Update fl dt input m).returned = true := by
  cases hcur : m._currentState with
  | none => simp [FiniteStateMachine.Update, hcur, Outcome.returned]
  | some cur =>
      cases cur with
      | fsm => exact absurd hcur h
      | state s =>
          obtain ⟨w, _, hw, cw, _⟩ := FiniteStateMachine.SetState_ok fl m s .WalkState hcur
          obtain ⟨r, _, hr, _, _⟩ := FiniteStateMachine.SetState_ok fl m s .RunState hcur
          obtain ⟨i, _, hi, _, _⟩ := FiniteStateMachine.SetState_ok fl m s .IdleState hcur
          obtain ⟨b, _, hb, cb, _⟩ := FiniteStateMachine.SetState_ok fl m s .WalkBackState hcur
          obtain ⟨rb, _, hrb, _, _⟩ :=
            FiniteStateMachine.SetState_ok fl m s .RunBackwardsState hcur
          obtain ⟨a, _, ha, _, _⟩ := FiniteStateMachine.SetState_ok fl m s .AttackState hcur
          obtain ⟨wb, _, hwb, cwb, _⟩ := FiniteStateMachine.SetState_ok fl w _ .WalkBackState cw
          obtain ⟨wa, _, hwa, _, _⟩ := FiniteStateMachine.SetState_ok fl w _ .AttackState cw
          obtain ⟨ba, _, hba, _, _⟩ := FiniteStateMachine.SetState_ok fl b _ .AttackState cb
          obtain ⟨wba, _, hwba, _, _⟩ := FiniteStateMachine.SetState_ok fl wb _ .AttackState cwb
          simp only [StateClass.Name] at hw hr hi hb hrb ha hwb hwa hba hwba
          cases hk : s.cls <;>
            cases hf : input._keys.forward <;> cases hbk : input._keys.backward <;>
            cases hsh : input._keys.shift <;> cases hsp : input._keys.space <;>
            simp [FiniteStateMachine.Update, hcur, StateObj.Update, hk, IdleState.Update,
              WalkState.Update, RunState.Update, RunBackwardsState.Update,
              WalkBackState.Update, AttackState.Update, hf, hbk, hsh, hsp, hw, hr, hi, hb, hrb,
              ha, hwb, hwa, hba, hwba, Outcome.andThen, Outcome.returned]

/-- When the state machine's `Update` returns, `_currentState` is not the machine itself. -/
theorem FiniteStateMachine.not_fsm_of_returned (fl : ℚ → ℚ) (m : CharacterFSM) (dt : ℚ)
    (input : BasicCharacterControllerInput)
    (h : (FiniteStateMachine.Update fl dt input m).returned = true) :
    m._currentState ≠ some .fsm := by
  intro hh
  simp [FiniteStateMachine.Update, hh, Outcome.returned] at h

/-! ## C14 — Forward and backward keys -/

/-- C14, counterexample: in binary64 arithmetic, after one frame of 0.02 s with forward held
the forward velocity is 1; in the next frame of 0.02 s, with forward and backward both
held, the deceleration step gives the number written `0.9`, and the frame ends with the
forward velocity `0.8999999999999999`, not with the value after the deceleration step. -/
theorem forward_backward_rounding_residue :
    bothKeysController._velocity.z = 1 ∧
    (BasicCharacterController.decelerated Float64.round (Float64.round (1 / 50))
      bothKeysController).z = 8106479329266893 / 9007199254740992 ∧
    (BasicCharacterController.Update Float64.round (Float64.round (1 / 50)) quietHost
      bothKeysController).controller._velocity.z = 2026619832316723 / 2251799813685248 ∧
    (BasicCharacterController.Update Float64.round (Float64.round (1 / 50)) quietHost
      bothKeysController).controller._velocity.z ≠
      (BasicCharacterController.decelerated Float64.round (Float64.round (1 / 50))
        bothKeysController).z := by
  decide!

/-- C14, amended: with the model loaded, one `Update` leaves as forward velocity the value
`d` after the deceleration step, to which the rounded `acceleration.z * dt` is added when
forward is held and then subtracted when backward is held, each result being rounded.  In
exact arithmetic this is `d` when both or neither are held, `d + acceleration.z * dt` for
forward alone and `d - acceleration.z * dt` for backward alone, `acceleration` being this
frame's acceleration (scaled by 3 under sprint). -/
theorem forward_backward_velocity (fl : ℚ → ℚ) (dt : ℚ) (host : MixerFrame)
    (c : BasicCharacterController) (obj : Object3D)
    (ht : c._target = some obj)
    (hm : (FiniteStateMachine.Update fl dt c._input c._stateMachine).returned = true) :
    (BasicCharacterController.Update fl dt host c).controller._velocity.z =
      (if c._input._keys.backward = true then
        fl ((if c._input._keys.forward = true then
              fl ((BasicCharacterController.decelerated fl dt c).z +
                fl ((BasicCharacterController.effectiveAcceleration fl c).z * dt))
            else (BasicCharacterController.decelerated fl dt c).z) -
          fl ((BasicCharacterController.effectiveAcceleration fl c).z * dt))
      else
        (if c._input._keys.forward = true then
          fl ((BasicCharacterController.decelerated fl dt c).z +
            fl ((BasicCharacterController.effectiveAcceleration fl c).z * dt))
        else (BasicCharacterController.decelerated fl dt c).z)) ∧
    (BasicCharacterController.Update id dt host c).controller._velocity.z =
      (BasicCharacterController.decelerated id dt c).z +
        (if c._input._keys.forward = true then
          (BasicCharacterController.effectiveAcceleration id c).z * dt else 0) -
        (if c._input._keys.backward = true then
          (BasicCharacterController.effectiveAcceleration id c).z * dt else 0) := by
  have h1 := (BasicCharacterController.Update_loaded fl dt host c obj ht hm).1
  have h2 := (BasicCharacterController.Update_loaded id dt host c obj ht
    (FiniteStateMachine.Update_returns id _ _ _
      (FiniteStateMachine.not_fsm_of_returned fl _ _ _ hm))).1
  rw [h1, h2]
  constructor
  · cases hf : c._input._keys.forward <;> cases hb : c._input._keys.backward <;>
      simp [BasicCharacterController.frameVelocity, hf, hb]
  · cases hf : c._input._keys.forward <;> cases hb : c._input._keys.backward <;>
      simp [BasicCharacterController.frameVelocity, hf, hb]

/-- C14, amended, at a concrete input: exact arithmetic, forward and backward both held at
forward velocity 1, `dt = 1/50`. -/
theorem forward_backward_velocity_witness :
    (BasicCharacterController.Update id (1 / 50) quietHost
        { movingController id 1 with
          _input := ⟨{ noKeys with forward := true, backward := true }⟩ }).controller._velocity.z
      = 9 / 10 ∧
    (BasicCharacterController.decelerated id (1 / 50)
        { movingController id 1 with
          _input := ⟨{ noKeys with forward := true, backward := true }⟩ }).z = 9 / 10 :=
  ⟨by
    have h := (forward_backward_velocity id (1 / 50) quietHost
      { movingController id 1 with
        _input := ⟨{ noKeys with forward := true, backward := true }⟩ }
      ⟨[], []⟩ rfl (by decide)).2
    rw [h]
    decide!, by decide!⟩

/-! ## C15 — Turning and sprint -/

/-- C15, counterexample: in a frame of 1 s with turn-left held, the rotation applied is
`Math.PI` radians without sprint and `Math.PI` radians with sprint (in exact and in binary64
arithmetic), not three times as much, although this frame's acceleration has `y = 0.75`
under sprint. -/
theorem turning_same_with_sprint :
    (BasicCharacterController.Update id 1 quietHost
      (standingController id { noKeys with left := true })).controller._target.map
        Object3D.quaternion = some [Math.PI] ∧
    (BasicCharacterController.Update id 1 quietHost
      (standingController id { noKeys with left := true, shift := true })).controller._target.map
        Object3D.quaternion = some [Math.PI] ∧
    (BasicCharacterController.Update Float64.round 1 quietHost
      (standingController Float64.round
        { noKeys with left := true, shift := true })).controller._target.map
        Object3D.quaternion = some [Math.PI] ∧
    (BasicCharacterController.effectiveAcceleration id
      (standingController id { noKeys with left := true, shift := true })).y = 3 / 4 ∧
    Math.PI ≠ 3 * Math.PI := by
  decide!

/-- C15, amended: with the model loaded, one `Update` appends to the orientation the
rotation `4 * Math.PI * dt * a` about the up axis when turn-left is held and then
`4 * -Math.PI * dt * a` when turn-right is held, `a` being the `y` component of the stored
base acceleration, not of this frame's scaled copy; the rotations are therefore the same
with and without sprint. -/
theorem turning_ignores_sprint (fl : ℚ → ℚ) (dt : ℚ) (host : MixerFrame)
    (c : BasicCharacterController) (obj : Object3D)
    (ht : c._target = some obj)
    (hm : c._stateMachine._currentState ≠ some .fsm) :
    (BasicCharacterController.Update fl dt host c).controller._target.map Object3D.quaternion =
      some (obj.quaternion ++
        ((if c._input._keys.left = true then
            [fl (fl (fl (fl 4 * Math.PI) * dt) * c._acceleration.y)] else []) ++
          (if c._input._keys.right = true then
            [fl (fl (fl (fl 4 * -Math.PI) * dt) * c._acceleration.y)] else []))) ∧
    (BasicCharacterController.Update fl dt host
        { c with _input := ⟨{ c._input._keys with shift := true }⟩ }).controller._target.map
        Object3D.quaternion =
      (BasicCharacterController.Update fl dt host
        { c with _input := ⟨{ c._input._keys with shift := false }⟩ }).controller._target.map
        Object3D.quaternion := by
  have h0 := (BasicCharacterController.Update_loaded fl dt host c obj ht
    (FiniteStateMachine.Update_returns fl _ _ _ hm)).2.1
  have h1 := (BasicCharacterController.Update_loaded fl dt host
    { c with _input := ⟨{ c._input._keys with shift := true }⟩ } obj ht
    (FiniteStateMachine.Update_returns fl _ _ _ hm)).2.1
  have h2 := (BasicCharacterController.Update_loaded fl dt host
    { c with _input := ⟨{ c._input._keys with shift := false }⟩ } obj ht
    (FiniteStateMachine.Update_returns fl _ _ _ hm)).2.1
  rw [h0, h1, h2]
  simp [BasicCharacterController.turns]

/-- C15, amended, at a concrete input: the standing controller with turn-right held,
`dt = 1/60`, exact arithmetic. -/
theorem turning_ignores_sprint_witness :
    (BasicCharacterController.Update id (1 / 60) quietHost
        (standingController id { noKeys with right := true })).controller._target.map
        Object3D.quaternion =
      some ((Object3D.mk [] []).quaternion ++
        ((if (standingController id { noKeys with right := true })._input._keys.left = true then
            [id (id (id (id 4 * Math.PI) * (1 / 60)) *
              (standingController id { noKeys with right := true })._acceleration.y)]
          else []) ++
          (if (standingController id { noKeys with right := true })._input._keys.right = true
          then
            [id (id (id (id 4 * -Math.PI) * (1 / 60)) *
              (standingController id { noKeys with right := true })._acceleration.y)]
          else []))) ∧
    (BasicCharacterController.Update id (1 / 60) quietHost
        { standingController id { noKeys with right := true } with
          _input := ⟨{ (standingController id { noKeys with right := true })._input._keys with
            shift := true }⟩ }).controller._target.map Object3D.quaternion =
      (BasicCharacterController.Update id (1 / 60) quietHost
        { standingController id { noKeys with right := true } with
          _input := ⟨{ (standingController id { noKeys with right := true })._input._keys with
            shift := false }⟩ }).controller._target.map Object3D.quaternion :=
  turning_ignores_sprint id (1 / 60) quietHost
    (standingController id { noKeys with right := true }) ⟨[], []⟩ rfl (by decide)

/-! ## C16 — Sprint and forward acceleration -/

/-- C16: with the model loaded and base forward acceleration 50, this frame's forward
acceleration is the rounded `50 * 3` when sprint is held and 50 when it is not; one `Update`
leaves the stored base acceleration vector as it was, and in exact arithmetic the forward
velocity ends as the value after the deceleration step plus `3 * 50 * dt` (sprint) or
`50 * dt` (no sprint) when forward is held, minus the same amount when backward is
held. -/
theorem sprint_scales_forward_acceleration (fl : ℚ → ℚ) (dt : ℚ) (host : MixerFrame)
    (c : BasicCharacterController) (obj : Object3D)
    (ht : c._target = some obj)
    (hm : (FiniteStateMachine.Update fl dt c._input c._stateMachine).returned = true)
    (ha : c._acceleration.z = 50) :
    (BasicCharacterController.Update fl dt host c).controller._acceleration = c._acceleration ∧
    (BasicCharacterController.effectiveAcceleration fl c).z =
      (if c._input._keys.shift = true then fl (50 * fl 3) else 50) ∧
    (BasicCharacterController.Update id dt host c).controller._velocity.z =
      (BasicCharacterController.decelerated id dt c).z +
        (if c._input._keys.forward = true then
          (if c._input._keys.shift = true then 3 * 50 * dt else 50 * dt) else 0) -
        (if c._input._keys.backward = true then
          (if c._input._keys.shift = true then 3 * 50 * dt else 50 * dt) else 0) := by
  have h1 := (BasicCharacterController.Update_loaded fl dt host c obj ht hm).2.2.1
  have h2 := (BasicCharacterController.Update_loaded id dt host c obj ht
    (FiniteStateMachine.Update_returns id _ _ _
      (FiniteStateMachine.not_fsm_of_returned fl _ _ _ hm))).1
  refine ⟨h1, ?_, ?_⟩
  · cases hsh : c._input._keys.shift <;>
      simp [BasicCharacterController.effectiveAcceleration, THREE.Vector3.multiplyScalar, hsh,
        ha]
  · rw [h2]
    cases hf : c._input._keys.forward <;> cases hb : c._input._keys.backward <;>
      cases hsh : c._input._keys.shift <;>
      simp only [BasicCharacterController.frameVelocity,
        BasicCharacterController.effectiveAcceleration, THREE.Vector3.multiplyScalar, hf, hb,
        hsh, ha, id, if_true, if_false, Bool.false_eq_true] <;> ring

/-- C16 at a concrete input: the standing controller with forward and sprint held,
`dt = 1/50`, exact arithmetic: the forward velocity becomes 3. -/
theorem sprint_scales_forward_acceleration_witness :
    (BasicCharacterController.Update id (1 / 50) quietHost
        (standingController id
          { noKeys with forward := true, shift := true })).controller._acceleration
      = (standingController id { noKeys with forward := true, shift := true })._acceleration ∧
    (BasicCharacterController.effectiveAcceleration id
        (standingController id { noKeys with forward := true, shift := true })).z = 150 ∧
    (BasicCharacterController.Update id (1 / 50) quietHost
        (standingController id
          { noKeys with forward := true, shift := true })).controller._velocity.z
      = 3 :=
  ⟨(sprint_scales_forward_acceleration id (1 / 50) quietHost
      (standingController id { noKeys with forward := true, shift := true }) ⟨[], []⟩ rfl
      (by decide) rfl).1, by decide!, by decide!⟩

/-! ## C20 — No lateral velocity -/

theorem Float64.round_zero : Float64.round 0 = 0 := by
  simp [Float64.round]

/-- Known binary64 facts reproduced by `Float64.round`: the numbers written `0.1` and
`0.02`; `0.1 + 0.2` is `0.30000000000000004`; `1.9 - 1` is `0.8999999999999999`;
`0.4 * (0.6 / 1.0)` is the number written `0.24`; and `0.3 * (1.2 / 0.8)` is
`0.4499999999999999`. -/
theorem Float64.round_examples :
    Float64.round (1 / 10) = 3602879701896397 / 36028797018963968 ∧
    Float64.round (1 / 50) = 5764607523034235 / 288230376151711744 ∧
    Float64.round (Float64.round (1 / 10) + Float64.round (2 / 10)) =
      5404319552844596 / 18014398509481984 ∧
    Float64.round (Float64.round (19 / 10) - 1) = 2026619832316723 / 2251799813685248 ∧
    Float64.round (Float64.round (2 / 5) * Float64.round (Float64.round (3 / 5) / 1)) =
      Float64.round (6 / 25) ∧
    Float64.round (Float64.round (3 / 10) *
        Float64.round (Float64.round (6 / 5) / Float64.round (4 / 5))) =
      8106479329266891 / 18014398509481984 := by
  decide!

theorem BasicCharacterController.frameVelocity_xy (fl : ℚ → ℚ) (hfl : fl 0 = 0) (dt : ℚ)
    (c : BasicCharacterController) (hx : c._velocity.x = 0) (hy : c._velocity.y = 0) :
    (BasicCharacterController.frameVelocity fl dt c).x = 0 ∧
    (BasicCharacterController.frameVelocity fl dt c).y = 0 := by
  constructor <;>
    cases hf : c._input._keys.forward <;> cases hb : c._input._keys.backward <;>
    simp [BasicCharacterController.frameVelocity, BasicCharacterController.decelerated,
      BasicCharacterController.frameDeceleration, THREE.Vector3.add,
      THREE.Vector3.multiplyScalar, hf, hb, hx, hy, hfl]

/-- One controller `Update` preserves the absence of lateral motion. -/
theorem BasicCharacterController.Update_noLateral (fl : ℚ → ℚ) (hfl : fl 0 = 0) (dt : ℚ)
    (host : MixerFrame) (c : BasicCharacterController) (h : NoLateral c) :
    NoLateral (BasicCharacterController.Update fl dt host c).controller := by
  cases ht : c._target with
  | none =>
      rw [show BasicCharacterController.Update fl dt host c = .ok c by
        simp [BasicCharacterController.Update, ht]]
      exact h
  | some obj =>
      cases hu : FiniteStateMachine.Update fl dt c._input c._stateMachine with
      | threw e m =>
          rw [show BasicCharacterController.Update fl dt host c =
            .threw e { c with _stateMachine := m } by
              simp [BasicCharacterController.Update, ht, hu]]
          exact ⟨h.x, h.y, h.sideways⟩
      | ok m =>
          have hm : (FiniteStateMachine.Update fl dt c._input c._stateMachine).returned = true := by
            simp [hu, Outcome.returned]
          obtain ⟨l1, l2, _⟩ := BasicCharacterController.Update_loaded fl dt host c obj ht hm
          obtain ⟨vx, vy⟩ := BasicCharacterController.frameVelocity_xy fl hfl dt c h.x h.y
          refine ⟨by rw [l1]; exact vx, by rw [l1]; exact vy, ?_⟩
          intro a ha
          have hs := h.sideways
          simp only [BasicCharacterController.sidewaysAmounts, ht] at hs
          simp only [BasicCharacterController.sidewaysAmounts, l2, vx, zero_mul, hfl] at ha
          simp only [List.filter_append, List.map_append, List.mem_append] at ha
          rcases ha with ha | ha
          · exact hs a ha
          · simp [List.filter] at ha
            exact ha

/-- C20: for every arithmetic whose rounding fixes 0 (exact and binary64 among them), the
constructor sets the velocity to (0, 0, 0), and from any controller whose lateral and
vertical velocity components are 0 and whose recorded sideways displacements are 0, every
finite sequence of frames (arbitrary keys, arbitrary `dt`, arbitrary host behaviour, model
loaded or not) ends with lateral and vertical velocity exactly 0 and with every sideways
displacement written to the position equal to 0. -/
theorem no_lateral_velocity (fl : ℚ → ℚ) (hfl : fl 0 = 0) (animations : AnimationSet)
    (frames : List Frame) (c : BasicCharacterController)
    (hx : c._velocity.x = 0) (hy : c._velocity.y = 0)
    (hs : ∀ a ∈ c.sidewaysAmounts, a = 0) :
    (BasicCharacterController.new fl animations)._velocity = { x := 0, y := 0, z := 0 } ∧
    (BasicCharacterController.run fl frames c)._velocity.x = 0 ∧
    (BasicCharacterController.run fl frames c)._velocity.y = 0 ∧
    ∀ a ∈ (BasicCharacterController.run fl frames c).sidewaysAmounts, a = 0 := by
  have main : ∀ (frames : List Frame) (c : BasicCharacterController),
      NoLateral c → NoLateral (BasicCharacterController.run fl frames c) := by
    intro frames
    induction frames with
    | nil => intro c h; exact h
    | cons f frames ih =>
        intro c h
        simp only [BasicCharacterController.run, List.foldl_cons]
        apply ih
        exact BasicCharacterController.Update_noLateral fl hfl f.timeInSeconds f.host
          { c with _input := { _keys := f.keys } } ⟨h.x, h.y, h.sideways⟩
  have r := main frames c ⟨hx, hy, hs⟩
  exact ⟨by simp [BasicCharacterController.new, hfl], r.x, r.y, r.sideways⟩

/-- C20 at a concrete input: two frames in binary64 arithmetic from the loaded
controller. -/
theorem no_lateral_velocity_witness :
    (BasicCharacterController.new Float64.round sampleAnimations)._velocity =
      { x := 0, y := 0, z := 0 } ∧
    (BasicCharacterController.run Float64.round sampleFrames
      (loadedController Float64.round))._velocity.x = 0 ∧
    (BasicCharacterController.run Float64.round sampleFrames
      (loadedController Float64.round))._velocity.y = 0 ∧
    ∀ a ∈ (BasicCharacterController.run Float64.round sampleFrames
      (loadedController Float64.round)).sidewaysAmounts, a = 0 :=
  no_lateral_velocity Float64.round Float64.round_zero sampleAnimations sampleFrames
    (loadedController Float64.round)
    (by simp [loadedController, BasicCharacterController.new, Float64.round_zero])
    (by simp [loadedController, BasicCharacterController.new, Float64.round_zero])
    (by simp [BasicCharacterController.sidewaysAmounts, loadedController])
